import Mathlib

/-!
# Verification of the HCNC class-name validator

Shallow embedding of the classification engine of the `@hikasami/naming`
package (`src/utils.ts`): the five BEM-family grammars (block, element,
nested element, modifier, state), the built-in utility-pattern catalog,
the classifier `getClassType`, the predicates `isHcncClass` /
`isUtilityClass`, the validator `validateClassName` with its diagnostic
messages, and the SCSS nesting expander `expandScssNesting`.

The anchored regular expressions of the source are translated as follows.

* The five BEM-family grammars are built from the segment shape
  `[a-z][a-z0-9]*(?:-[a-z0-9]+)*`.  A segment contains no underscore and
  no two adjacent hyphens, and the grammars join segments with the
  literal separators `_`, `__` and `--`.  Splitting the candidate string
  at those separators is therefore unambiguous, and each grammar is
  translated as: split the string at the separator character and check
  the parts.  `splitSep` below splits at a character (like
  `String.split`), `splitDD` splits at the first occurrence of `--`
  (which, for strings whose pieces are separator-free, is the only one).
* The utility catalog keeps its regex structure: a small regular
  expression datatype `Re` with a standard anchored backtracking
  matcher, and each catalog entry transcribed as a `Re` term.  These
  patterns are only ever evaluated, never analysed structurally.

Character classes are the ASCII ranges used by the JavaScript regexes.
-/

/-! ## Character classes -/

/-- `[a-z]` of the source regexes (ASCII lowercase letter). -/
def isLowC (c : Char) : Bool := 97 ≤ c.toNat && c.toNat ≤ 122

/-- `[0-9]` of the source regexes (ASCII digit). -/
def isDigC (c : Char) : Bool := 48 ≤ c.toNat && c.toNat ≤ 57

/-- `[A-Z]` of the source regexes (ASCII uppercase letter). -/
def isUpC (c : Char) : Bool := 65 ≤ c.toNat && c.toNat ≤ 90

/-- `[a-z0-9]`: the characters allowed inside a segment besides hyphens. -/
def lnOK (c : Char) : Bool := isLowC c || isDigC c

/-- `[a-zA-Z0-9]` (used by the state grammar and diagnostics). -/
def alnumC (c : Char) : Bool := isLowC c || isUpC c || isDigC c

/-- `\w` = `[A-Za-z0-9_]` of the utility regexes. -/
def wordCh (c : Char) : Bool := alnumC c || c = '_'

/-! ## Runs of a repeated character

`has2 d l` (resp. `has3 d l`) models the JavaScript substring test
`l.includes(dd)` (resp. `l.includes(ddd)`): some position of `l` starts
two (resp. three) adjacent occurrences of `d`. -/

/-- The list starts with two copies of `d`. -/
def starts2 (d : Char) : List Char → Bool
  | a :: b :: _ => a = d && b = d
  | _ => false

/-- The list starts with three copies of `d`. -/
def starts3 (d : Char) : List Char → Bool
  | a :: b :: c :: _ => a = d && b = d && c = d
  | _ => false

/-- Some suffix of the list starts with two copies of `d`. -/
def has2 (d : Char) : List Char → Bool
  | [] => false
  | a :: t => starts2 d (a :: t) || has2 d t

/-- Some suffix of the list starts with three copies of `d`. -/
def has3 (d : Char) : List Char → Bool
  | [] => false
  | a :: t => starts3 d (a :: t) || has3 d t

/-- Model of the JavaScript single-character `includes` test. -/
def containsC (d : Char) (l : List Char) : Bool := l.any (fun c => c = d)

/-! ## Splitting at a separator character -/

/-- Split a character list at every occurrence of `d`, keeping empty
pieces, exactly like JavaScript `split(d)`.  Never returns `[]`. -/
def splitSep (d : Char) : List Char → List (List Char)
  | [] => [[]]
  | c :: cs =>
    if c = d then [] :: splitSep d cs
    else
      match splitSep d cs with
      | p :: ps => (c :: p) :: ps
      | [] => [[c]]

/-- Rejoin the pieces produced by `splitSep`, reinserting the separator. -/
def joinSep (d : Char) : List (List Char) → List Char
  | [] => []
  | [p] => p
  | p :: ps => p ++ d :: joinSep d ps

/-- Split a character list at the first occurrence of `--`
(the modifier separator). -/
def splitDD : List Char → Option (List Char × List Char)
  | [] => none
  | [_] => none
  | c :: d :: rest =>
    if c = '-' && d = '-' then some ([], rest)
    else
      match splitDD (d :: rest) with
      | some (a, b) => some (c :: a, b)
      | none => none

/-! ## The five BEM-family grammars

Source patterns (`src/utils.ts`):

* `BLOCK_PATTERN          = /^[a-z][a-z0-9]*(?:-[a-z0-9]+)*$/`
* `ELEMENT_PATTERN        = /^<seg>_<seg>$/`
* `NESTED_ELEMENT_PATTERN = /^<seg>_<seg>__<seg>$/`
* `MODIFIER_PATTERN       = /^<seg>(?:_<seg>)?(?:__<seg>)?--<seg>$/`
* `STATE_PATTERN          = /^(is|has)[A-Z][a-zA-Z0-9]*$/`

where `<seg>` abbreviates `[a-z][a-z0-9]*(?:-[a-z0-9]+)*`.

A `<seg>` is a nonempty run of `[a-z0-9-]` characters that starts with a
lowercase letter, where every hyphen is followed by an alphanumeric
character: equivalently, splitting at `-` yields a first piece of shape
`[a-z][a-z0-9]*` and further nonempty `[a-z0-9]+` pieces.  Since a
`<seg>` contains neither `_` nor two adjacent hyphens, the concatenation
grammars above are recovered exactly by splitting at `_` (for `_`/`__`)
and at the first `--` (for the modifier), as proved convenient below. -/

/-- First piece of a segment: `[a-z][a-z0-9]*`. -/
def firstPart : List Char → Bool
  | [] => false
  | c :: cs => isLowC c && cs.all lnOK

/-- Later piece of a segment (after a hyphen): `[a-z0-9]+`. -/
def tailPart (p : List Char) : Bool := !p.isEmpty && p.all lnOK

/-- The segment shape `[a-z][a-z0-9]*(?:-[a-z0-9]+)*`. -/
def isSegL (l : List Char) : Bool :=
  match splitSep '-' l with
  | [] => false
  | p :: ps => firstPart p && ps.all tailPart

/-- `ELEMENT_PATTERN` on character lists: `<seg>_<seg>`. -/
def isElemL (l : List Char) : Bool :=
  match splitSep '_' l with
  | [b, e] => isSegL b && isSegL e
  | _ => false

/-- `NESTED_ELEMENT_PATTERN` on character lists: `<seg>_<seg>__<seg>`
(splitting `b_e__n` at `_` gives `[b, e, [], n]`). -/
def isNestedL (l : List Char) : Bool :=
  match splitSep '_' l with
  | [b, e, [], n] => isSegL b && isSegL e && isSegL n
  | _ => false

/-- The base of `MODIFIER_PATTERN`: `<seg>(?:_<seg>)?(?:__<seg>)?`.
The four alternatives `b`, `b_e`, `b__n`, `b_e__n` split at `_` into
`[b]`, `[b, e]`, `[b, [], n]`, `[b, e, [], n]` respectively. -/
def isBaseL (b : List Char) : Bool :=
  match splitSep '_' b with
  | [x] => isSegL x
  | [x, y] => isSegL x && isSegL y
  | [x, [], y] => isSegL x && isSegL y
  | [x, y, [], z] => isSegL x && isSegL y && isSegL z
  | _ => false

/-- `MODIFIER_PATTERN` on character lists: base, `--`, final segment.
Base and final segment contain no `--`, so the separator is the first
(and only) occurrence of `--`. -/
def isModifierL (l : List Char) : Bool :=
  match splitDD l with
  | some (b, f) => isBaseL b && isSegL f
  | none => false

/-- `STATE_PATTERN` on character lists: `(is|has)[A-Z][a-zA-Z0-9]*`. -/
def isStateL (l : List Char) : Bool :=
  match l with
  | 'i' :: 's' :: c :: rest => isUpC c && rest.all alnumC
  | 'h' :: 'a' :: 's' :: c :: rest => isUpC c && rest.all alnumC
  | _ => false

/-- `isBlock` of the source: `BLOCK_PATTERN.test(className)`. -/
def isBlock (className : String) : Bool := isSegL className.data

/-- `isElement` of the source. -/
def isElement (className : String) : Bool := isElemL className.data

/-- `isNestedElement` of the source. -/
def isNestedElement (className : String) : Bool := isNestedL className.data

/-- `isModifier` of the source. -/
def isModifier (className : String) : Bool := isModifierL className.data

/-- `isStateClass` of the source. -/
def isStateClass (className : String) : Bool := isStateL className.data

example : isBlock "card" = true := by decide
example : isBlock "header-nav" = true := by decide
example : isBlock "mt-2" = true := by decide
example : isBlock "Card" = false := by decide
example : isBlock "card-" = false := by decide
example : isBlock "ca--rd" = false := by decide
example : isElement "card_info" = true := by decide
example : isElement "card__info" = false := by decide
example : isNestedElement "card_info__title" = true := by decide
example : isNestedElement "card___triple" = false := by decide
example : isModifier "card--highlighted" = true := by decide
example : isModifier "card_info--active" = true := by decide
example : isModifier "card_info__title--big" = true := by decide
example : isModifier "a__b--c" = true := by decide
example : isModifier "a---b" = false := by decide
example : isStateClass "isActive" = true := by decide
example : isStateClass "hasError" = true := by decide
example : isStateClass "is-active" = false := by decide
example : isStateClass "island" = false := by decide

/-! ## A small regular-expression engine for the utility catalog

`UTILITY_PATTERNS` of the source is a list of anchored JavaScript
regexes built from literals, character classes, alternation, option,
`*`/`+` over character classes, and bounded repetition.  They are
transcribed below as terms of `Re` and matched with a standard anchored
backtracking matcher in continuation-passing style.  `Re.star` bodies in
the catalog always consume at least one character per iteration, so the
iteration bound `length + 1` used by `starIter` is never reached. -/

inductive Re where
  | eps : Re
  | chr : (Char → Bool) → Re
  | seq : Re → Re → Re
  | alt : Re → Re → Re
  | star : Re → Re

/-- Iterate a matcher at most `fuel` times (Kleene star unrolling). -/
def starIter (m : List Char → (List Char → Bool) → Bool) :
    Nat → List Char → (List Char → Bool) → Bool
  | 0, s, k => k s
  | fuel + 1, s, k => k s || m s (fun s2 => starIter m fuel s2 k)

/-- Backtracking matcher: `mtchR r s k` holds iff some prefix of `s`
matches `r` and `k` accepts the corresponding suffix. -/
def mtchR : Re → List Char → (List Char → Bool) → Bool
  | .eps, s, k => k s
  | .chr _, [], _ => false
  | .chr p, c :: s, k => p c && k s
  | .seq a b, s, k => mtchR a s (fun s2 => mtchR b s2 k)
  | .alt a b, s, k => mtchR a s k || mtchR b s k
  | .star a, s, k => starIter (mtchR a) (s.length + 1) s k

/-- Anchored test `/^r$/.test(s)`. -/
def reTest (r : Re) (s : String) : Bool :=
  mtchR r s.data (fun rem => rem.isEmpty)

/-- Literal character. -/
def reChr (c : Char) : Re := .chr (fun x => x = c)

/-- Literal string. -/
def reStr (s : String) : Re := s.data.foldr (fun c r => .seq (reChr c) r) .eps

/-- Alternation of a list (empty list never matches). -/
def reAlts : List Re → Re
  | [] => .chr (fun _ => false)
  | [r] => r
  | r :: rs => .alt r (reAlts rs)

/-- Alternation of literal strings `(a|b|...)`. -/
def reStrs (l : List String) : Re := reAlts (l.map reStr)

/-- `r?`. -/
def reOpt (r : Re) : Re := .alt .eps r

/-- `r+`. -/
def rePlus (r : Re) : Re := .seq r (.star r)

/-- Character class from an explicit set, e.g. `[mp]`. -/
def reCls (s : String) : Re := .chr (fun c => s.data.contains c)

/-- `\d`. -/
def reDig : Re := .chr isDigC

/-- `\d+`. -/
def reNum : Re := rePlus reDig

/-- `(\.\d+)?`. -/
def reDec : Re := reOpt (.seq (reChr '.') reNum)

/-- `\w+`. -/
def reWord : Re := rePlus (.chr wordCh)

/-- `.` of the source regexes (any character but a line terminator). -/
def reAny : Re := .chr (fun c => !(c = '\n' || c = '\r'))

/-- `[0-9a-fA-F]`. -/
def reHex : Re := .chr (fun c => isDigC c || (97 ≤ c.toNat && c.toNat ≤ 102) || (65 ≤ c.toNat && c.toNat ≤ 70))

/-- `[0-9a-fA-F]{3,8}`: three mandatory hex digits and up to five more. -/
def reHex38 : Re :=
  .seq reHex (.seq reHex (.seq reHex
    (reOpt (.seq reHex (reOpt (.seq reHex (reOpt (.seq reHex
      (reOpt (.seq reHex (reOpt reHex)))))))))))

/-- `\d{2,3}`. -/
def reDig23 : Re := .seq reDig (.seq reDig (reOpt reDig))

example : reTest (reStr "flex") "flex" = true := by decide
example : reTest (reStr "flex") "flexx" = false := by decide
example : reTest (.seq (reCls "mp") (.seq (reOpt (reCls "trblxy")) (.seq (reChr '-') (.seq reNum reDec)))) "mt-2" = true := by decide
example : reTest (.seq (reStr "from-") (.seq reWord (reOpt (.seq (reChr '-') reNum)))) "from-a_b" = true := by decide
example : reTest (.seq (reStr "text-[") (.seq (rePlus reAny) (reChr ']'))) "text-[14px]" = true := by decide

/-! ## The built-in utility catalog

`UTILITY_PATTERNS` of `src/utils.ts`, transcribed entry by entry in
source order.  Each entry is annotated with the original regex. -/

/-- Entries 1-25 of `UTILITY_PATTERNS` (see the concatenation below). -/
def UTILITY_PATTERNS_1 : List Re := [
  -- Flexbox
  -- /^flex$/
  reStr "flex",

  -- /^inline-flex$/
  reStr "inline-flex",

  -- /^flex-(row|col|wrap|nowrap|1|auto|initial|none)$/
  .seq (reStr "flex-") (reStrs ["row", "col", "wrap", "nowrap", "1", "auto", "initial", "none"]),

  -- /^flex-(row|col)-reverse$/
  .seq (reStr "flex-") (.seq (reStrs ["row", "col"]) (reStr "-reverse")),

  -- /^items-(start|end|center|baseline|stretch)$/
  .seq (reStr "items-") (reStrs ["start", "end", "center", "baseline", "stretch"]),

  -- /^justify-(start|end|center|between|around|evenly)$/
  .seq (reStr "justify-") (reStrs ["start", "end", "center", "between", "around", "evenly"]),

  -- /^self-(auto|start|end|center|stretch|baseline)$/
  .seq (reStr "self-") (reStrs ["auto", "start", "end", "center", "stretch", "baseline"]),

  -- /^grow(-0)?$/
  .seq (reStr "grow") (reOpt (reStr "-0")),

  -- /^shrink(-0)?$/
  .seq (reStr "shrink") (reOpt (reStr "-0")),

  -- /^order-\d+$/
  .seq (reStr "order-") reNum,


  -- Grid
  -- /^grid$/
  reStr "grid",

  -- /^inline-grid$/
  reStr "inline-grid",

  -- /^grid-cols-\d+$/
  .seq (reStr "grid-cols-") reNum,

  -- /^grid-rows-\d+$/
  .seq (reStr "grid-rows-") reNum,

  -- /^col-span-\d+$/
  .seq (reStr "col-span-") reNum,

  -- /^row-span-\d+$/
  .seq (reStr "row-span-") reNum,

  -- /^gap-\d+$/
  .seq (reStr "gap-") reNum,

  -- /^gap-x-\d+$/
  .seq (reStr "gap-x-") reNum,

  -- /^gap-y-\d+$/
  .seq (reStr "gap-y-") reNum,


  -- Spacing (margin, padding)
  -- /^[mp][trblxy]?-\d+(\.\d+)?$/
  .seq (reCls "mp") (.seq (reOpt (reCls "trblxy")) (.seq (reChr '-') (.seq reNum reDec))),

  -- /^-[mp][trblxy]?-\d+(\.\d+)?$/
  .seq (reChr '-') (.seq (reCls "mp") (.seq (reOpt (reCls "trblxy")) (.seq (reChr '-') (.seq reNum reDec)))),

  -- /^space-[xy]-\d+$/
  .seq (reStr "space-") (.seq (reCls "xy") (.seq (reChr '-') reNum)),

  -- /^-space-[xy]-\d+$/
  .seq (reStr "-space-") (.seq (reCls "xy") (.seq (reChr '-') reNum)),


  -- Sizing
  -- /^[wh]-(full|screen|auto|min|max|fit|\d+(\.\d+)?|(\d+\/\d+))$/
  .seq (reCls "wh") (.seq (reChr '-')
    (reAlts [reStrs ["full", "screen", "auto", "min", "max", "fit"],
             .seq reNum reDec,
             .seq reNum (.seq (reChr '/') reNum)])),

  -- /^min-[wh]-(full|screen|0|\d+(\.\d+)?)$/
  .seq (reStr "min-") (.seq (reCls "wh") (.seq (reChr '-')
    (reAlts [reStrs ["full", "screen", "0"], .seq reNum reDec])))
]

/-- Entries 26-50 of `UTILITY_PATTERNS` (see the concatenation below). -/
def UTILITY_PATTERNS_2 : List Re := [

  -- /^max-[wh]-(full|screen|none|\d+(\.\d+)?)$/
  .seq (reStr "max-") (.seq (reCls "wh") (.seq (reChr '-')
    (reAlts [reStrs ["full", "screen", "none"], .seq reNum reDec]))),

  -- /^size-\d+$/
  .seq (reStr "size-") reNum,


  -- Typography
  -- /^text-(xs|sm|base|lg|xl|2xl|3xl|4xl|5xl|6xl|7xl|8xl|9xl)$/
  .seq (reStr "text-") (reStrs ["xs", "sm", "base", "lg", "xl", "2xl", "3xl", "4xl", "5xl", "6xl", "7xl", "8xl", "9xl"]),

  -- /^text-(left|center|right|justify|start|end)$/
  .seq (reStr "text-") (reStrs ["left", "center", "right", "justify", "start", "end"]),

  -- /^text-\[.+\]$/  (arbitrary values)
  .seq (reStr "text-[") (.seq (rePlus reAny) (reChr ']')),

  -- /^font-(thin|extralight|light|normal|medium|semibold|bold|extrabold|black)$/
  .seq (reStr "font-") (reStrs ["thin", "extralight", "light", "normal", "medium", "semibold", "bold", "extrabold", "black"]),

  -- /^font-(sans|serif|mono)$/
  .seq (reStr "font-") (reStrs ["sans", "serif", "mono"]),

  -- /^leading-(none|tight|snug|normal|relaxed|loose|\d+)$/
  .seq (reStr "leading-") (reAlts [reStrs ["none", "tight", "snug", "normal", "relaxed", "loose"], reNum]),

  -- /^tracking-(tighter|tight|normal|wide|wider|widest)$/
  .seq (reStr "tracking-") (reStrs ["tighter", "tight", "normal", "wide", "wider", "widest"]),

  -- /^uppercase$/
  reStr "uppercase",

  -- /^lowercase$/
  reStr "lowercase",

  -- /^capitalize$/
  reStr "capitalize",

  -- /^normal-case$/
  reStr "normal-case",

  -- /^italic$/
  reStr "italic",

  -- /^not-italic$/
  reStr "not-italic",

  -- /^underline$/
  reStr "underline",

  -- /^overline$/
  reStr "overline",

  -- /^line-through$/
  reStr "line-through",

  -- /^no-underline$/
  reStr "no-underline",

  -- /^truncate$/
  reStr "truncate",

  -- /^whitespace-(normal|nowrap|pre|pre-line|pre-wrap|break-spaces)$/
  .seq (reStr "whitespace-") (reStrs ["normal", "nowrap", "pre", "pre-line", "pre-wrap", "break-spaces"]),

  -- /^break-(normal|words|all|keep)$/
  .seq (reStr "break-") (reStrs ["normal", "words", "all", "keep"]),


  -- Colors
  -- /^(text|bg|border|ring|shadow)-(transparent|current|inherit)$/
  .seq (reStrs ["text", "bg", "border", "ring", "shadow"]) (.seq (reChr '-') (reStrs ["transparent", "current", "inherit"])),

  -- /^(text|bg|border|ring)-(black|white)$/
  .seq (reStrs ["text", "bg", "border", "ring"]) (.seq (reChr '-') (reStrs ["black", "white"])),

  -- /^(text|bg|border|ring)-(slate|gray|zinc|neutral|stone|red|orange|amber|yellow|lime|green|emerald|teal|cyan|sky|blue|indigo|violet|purple|fuchsia|pink|rose)-\d{2,3}$/
  .seq (reStrs ["text", "bg", "border", "ring"]) (.seq (reChr '-')
    (.seq (reStrs ["slate", "gray", "zinc", "neutral", "stone", "red", "orange", "amber", "yellow", "lime", "green", "emerald", "teal", "cyan", "sky", "blue", "indigo", "violet", "purple", "fuchsia", "pink", "rose"])
      (.seq (reChr '-') reDig23)))
]

/-- Entries 51-75 of `UTILITY_PATTERNS` (see the concatenation below). -/
def UTILITY_PATTERNS_3 : List Re := [

  -- /^(text|bg|border|ring)-\[#[0-9a-fA-F]{3,8}\]$/
  .seq (reStrs ["text", "bg", "border", "ring"]) (.seq (reStr "-[#") (.seq reHex38 (reChr ']'))),

  -- /^(text|bg|border|ring)-\[rgb.+\]$/
  .seq (reStrs ["text", "bg", "border", "ring"]) (.seq (reStr "-[rgb") (.seq (rePlus reAny) (reChr ']'))),


  -- Backgrounds
  -- /^bg-(fixed|local|scroll)$/
  .seq (reStr "bg-") (reStrs ["fixed", "local", "scroll"]),

  -- /^bg-(bottom|center|left|left-bottom|left-top|right|right-bottom|right-top|top)$/
  .seq (reStr "bg-") (reStrs ["bottom", "center", "left", "left-bottom", "left-top", "right", "right-bottom", "right-top", "top"]),

  -- /^bg-(repeat|no-repeat|repeat-x|repeat-y|repeat-round|repeat-space)$/
  .seq (reStr "bg-") (reStrs ["repeat", "no-repeat", "repeat-x", "repeat-y", "repeat-round", "repeat-space"]),

  -- /^bg-(auto|cover|contain)$/
  .seq (reStr "bg-") (reStrs ["auto", "cover", "contain"]),

  -- /^bg-gradient-to-(t|tr|r|br|b|bl|l|tl)$/
  .seq (reStr "bg-gradient-to-") (reStrs ["t", "tr", "r", "br", "b", "bl", "l", "tl"]),

  -- /^from-\w+(-\d+)?$/
  .seq (reStr "from-") (.seq reWord (reOpt (.seq (reChr '-') reNum))),

  -- /^via-\w+(-\d+)?$/
  .seq (reStr "via-") (.seq reWord (reOpt (.seq (reChr '-') reNum))),

  -- /^to-\w+(-\d+)?$/
  .seq (reStr "to-") (.seq reWord (reOpt (.seq (reChr '-') reNum))),


  -- Borders
  -- /^border(-[trblxy])?(-\d+)?$/
  .seq (reStr "border") (.seq (reOpt (.seq (reChr '-') (reCls "trblxy"))) (reOpt (.seq (reChr '-') reNum))),

  -- /^border-(solid|dashed|dotted|double|hidden|none)$/
  .seq (reStr "border-") (reStrs ["solid", "dashed", "dotted", "double", "hidden", "none"]),

  -- /^rounded(-[trblxy])?(-none|-sm|-md|-lg|-xl|-2xl|-3xl|-full)?$/
  .seq (reStr "rounded") (.seq (reOpt (.seq (reChr '-') (reCls "trblxy")))
    (reOpt (reStrs ["-none", "-sm", "-md", "-lg", "-xl", "-2xl", "-3xl", "-full"]))),

  -- /^divide-[xy](-\d+)?$/
  .seq (reStr "divide-") (.seq (reCls "xy") (reOpt (.seq (reChr '-') reNum))),

  -- /^divide-(solid|dashed|dotted|double|none)$/
  .seq (reStr "divide-") (reStrs ["solid", "dashed", "dotted", "double", "none"]),

  -- /^ring(-\d+)?$/
  .seq (reStr "ring") (reOpt (.seq (reChr '-') reNum)),

  -- /^ring-inset$/
  reStr "ring-inset",

  -- /^ring-offset-\d+$/
  .seq (reStr "ring-offset-") reNum,


  -- Effects
  -- /^shadow(-sm|-md|-lg|-xl|-2xl|-inner|-none)?$/
  .seq (reStr "shadow") (reOpt (reStrs ["-sm", "-md", "-lg", "-xl", "-2xl", "-inner", "-none"])),

  -- /^opacity-\d+$/
  .seq (reStr "opacity-") reNum,

  -- /^mix-blend-\w+$/
  .seq (reStr "mix-blend-") reWord,

  -- /^bg-blend-\w+$/
  .seq (reStr "bg-blend-") reWord,


  -- Filters
  -- /^blur(-sm|-md|-lg|-xl|-2xl|-3xl|-none)?$/
  .seq (reStr "blur") (reOpt (reStrs ["-sm", "-md", "-lg", "-xl", "-2xl", "-3xl", "-none"])),

  -- /^brightness-\d+$/
  .seq (reStr "brightness-") reNum,

  -- /^contrast-\d+$/
  .seq (reStr "contrast-") reNum
]

/-- Entries 76-100 of `UTILITY_PATTERNS` (see the concatenation below). -/
def UTILITY_PATTERNS_4 : List Re := [

  -- /^grayscale(-0)?$/
  .seq (reStr "grayscale") (reOpt (reStr "-0")),

  -- /^hue-rotate-\d+$/
  .seq (reStr "hue-rotate-") reNum,

  -- /^-hue-rotate-\d+$/
  .seq (reStr "-hue-rotate-") reNum,

  -- /^invert(-0)?$/
  .seq (reStr "invert") (reOpt (reStr "-0")),

  -- /^saturate-\d+$/
  .seq (reStr "saturate-") reNum,

  -- /^sepia(-0)?$/
  .seq (reStr "sepia") (reOpt (reStr "-0")),

  -- /^drop-shadow(-sm|-md|-lg|-xl|-2xl|-none)?$/
  .seq (reStr "drop-shadow") (reOpt (reStrs ["-sm", "-md", "-lg", "-xl", "-2xl", "-none"])),

  -- /^backdrop-blur(-sm|-md|-lg|-xl|-2xl|-3xl|-none)?$/
  .seq (reStr "backdrop-blur") (reOpt (reStrs ["-sm", "-md", "-lg", "-xl", "-2xl", "-3xl", "-none"])),


  -- Layout
  -- /^block$/
  reStr "block",

  -- /^inline-block$/
  reStr "inline-block",

  -- /^inline$/
  reStr "inline",

  -- /^hidden$/
  reStr "hidden",

  -- /^contents$/
  reStr "contents",

  -- /^flow-root$/
  reStr "flow-root",

  -- /^list-item$/
  reStr "list-item",

  -- /^list-(none|disc|decimal)$/
  .seq (reStr "list-") (reStrs ["none", "disc", "decimal"]),

  -- /^float-(left|right|none)$/
  .seq (reStr "float-") (reStrs ["left", "right", "none"]),

  -- /^clear-(left|right|both|none)$/
  .seq (reStr "clear-") (reStrs ["left", "right", "both", "none"]),

  -- /^object-(contain|cover|fill|none|scale-down)$/
  .seq (reStr "object-") (reStrs ["contain", "cover", "fill", "none", "scale-down"]),

  -- /^object-(bottom|center|left|left-bottom|left-top|right|right-bottom|right-top|top)$/
  .seq (reStr "object-") (reStrs ["bottom", "center", "left", "left-bottom", "left-top", "right", "right-bottom", "right-top", "top"]),

  -- /^overflow(-[xy])?-(auto|hidden|clip|visible|scroll)$/
  .seq (reStr "overflow") (.seq (reOpt (.seq (reChr '-') (reCls "xy")))
    (.seq (reChr '-') (reStrs ["auto", "hidden", "clip", "visible", "scroll"]))),

  -- /^overscroll(-[xy])?-(auto|contain|none)$/
  .seq (reStr "overscroll") (.seq (reOpt (.seq (reChr '-') (reCls "xy")))
    (.seq (reChr '-') (reStrs ["auto", "contain", "none"]))),


  -- Positioning
  -- /^(static|fixed|absolute|relative|sticky)$/
  reStrs ["static", "fixed", "absolute", "relative", "sticky"],

  -- /^(top|right|bottom|left|inset)(-[xy])?-\d+(\.\d+)?$/
  .seq (reStrs ["top", "right", "bottom", "left", "inset"]) (.seq (reOpt (.seq (reChr '-') (reCls "xy")))
    (.seq (reChr '-') (.seq reNum reDec))),

  -- /^-(top|right|bottom|left|inset)(-[xy])?-\d+(\.\d+)?$/
  .seq (reChr '-') (.seq (reStrs ["top", "right", "bottom", "left", "inset"]) (.seq (reOpt (.seq (reChr '-') (reCls "xy")))
    (.seq (reChr '-') (.seq reNum reDec))))
]

/-- Entries 101-125 of `UTILITY_PATTERNS` (see the concatenation below). -/
def UTILITY_PATTERNS_5 : List Re := [

  -- /^(top|right|bottom|left|inset)(-[xy])?-(auto|full|1\/2)$/
  .seq (reStrs ["top", "right", "bottom", "left", "inset"]) (.seq (reOpt (.seq (reChr '-') (reCls "xy")))
    (.seq (reChr '-') (reStrs ["auto", "full", "1/2"]))),

  -- /^z-\d+$/
  .seq (reStr "z-") reNum,

  -- /^z-(auto)$/
  reStr "z-auto",

  -- /^-z-\d+$/
  .seq (reStr "-z-") reNum,


  -- Transforms
  -- /^scale(-[xy])?-\d+$/
  .seq (reStr "scale") (.seq (reOpt (.seq (reChr '-') (reCls "xy"))) (.seq (reChr '-') reNum)),

  -- /^rotate-\d+$/
  .seq (reStr "rotate-") reNum,

  -- /^-rotate-\d+$/
  .seq (reStr "-rotate-") reNum,

  -- /^translate-[xy]-\d+(\.\d+)?$/
  .seq (reStr "translate-") (.seq (reCls "xy") (.seq (reChr '-') (.seq reNum reDec))),

  -- /^-translate-[xy]-\d+(\.\d+)?$/
  .seq (reStr "-translate-") (.seq (reCls "xy") (.seq (reChr '-') (.seq reNum reDec))),

  -- /^skew-[xy]-\d+$/
  .seq (reStr "skew-") (.seq (reCls "xy") (.seq (reChr '-') reNum)),

  -- /^-skew-[xy]-\d+$/
  .seq (reStr "-skew-") (.seq (reCls "xy") (.seq (reChr '-') reNum)),

  -- /^origin-(center|top|top-right|right|bottom-right|bottom|bottom-left|left|top-left)$/
  .seq (reStr "origin-") (reStrs ["center", "top", "top-right", "right", "bottom-right", "bottom", "bottom-left", "left", "top-left"]),

  -- /^transform$/
  reStr "transform",

  -- /^transform-none$/
  reStr "transform-none",

  -- /^transform-gpu$/
  reStr "transform-gpu",


  -- Transitions & Animation
  -- /^transition(-all|-colors|-opacity|-shadow|-transform|-none)?$/
  .seq (reStr "transition") (reOpt (reStrs ["-all", "-colors", "-opacity", "-shadow", "-transform", "-none"])),

  -- /^duration-\d+$/
  .seq (reStr "duration-") reNum,

  -- /^ease-(linear|in|out|in-out)$/
  .seq (reStr "ease-") (reStrs ["linear", "in", "out", "in-out"]),

  -- /^delay-\d+$/
  .seq (reStr "delay-") reNum,

  -- /^animate-(none|spin|ping|pulse|bounce)$/
  .seq (reStr "animate-") (reStrs ["none", "spin", "ping", "pulse", "bounce"]),


  -- Interactivity
  -- /^cursor-(auto|default|pointer|wait|text|move|help|not-allowed|none|context-menu|progress|cell|crosshair|vertical-text|alias|copy|no-drop|grab|grabbing|all-scroll|col-resize|row-resize|n-resize|e-resize|s-resize|w-resize|ne-resize|nw-resize|se-resize|sw-resize|ew-resize|ns-resize|nesw-resize|nwse-resize|zoom-in|zoom-out)$/
  .seq (reStr "cursor-") (reStrs ["auto", "default", "pointer", "wait", "text", "move", "help", "not-allowed", "none", "context-menu", "progress", "cell", "crosshair", "vertical-text", "alias", "copy", "no-drop", "grab", "grabbing", "all-scroll", "col-resize", "row-resize", "n-resize", "e-resize", "s-resize", "w-resize", "ne-resize", "nw-resize", "se-resize", "sw-resize", "ew-resize", "ns-resize", "nesw-resize", "nwse-resize", "zoom-in", "zoom-out"]),

  -- /^resize(-none|-x|-y)?$/
  .seq (reStr "resize") (reOpt (reStrs ["-none", "-x", "-y"])),

  -- /^select-(none|text|all|auto)$/
  .seq (reStr "select-") (reStrs ["none", "text", "all", "auto"]),

  -- /^pointer-events-(none|auto)$/
  .seq (reStr "pointer-events-") (reStrs ["none", "auto"]),

  -- /^touch-(auto|none|pan-x|pan-left|pan-right|pan-y|pan-up|pan-down|pinch-zoom|manipulation)$/
  .seq (reStr "touch-") (reStrs ["auto", "none", "pan-x", "pan-left", "pan-right", "pan-y", "pan-up", "pan-down", "pinch-zoom", "manipulation"])
]

/-- Entries 126-150 of `UTILITY_PATTERNS` (see the concatenation below). -/
def UTILITY_PATTERNS_6 : List Re := [

  -- /^scroll-(auto|smooth)$/
  .seq (reStr "scroll-") (reStrs ["auto", "smooth"]),

  -- /^scroll-[mp][trblxy]?-\d+$/
  .seq (reStr "scroll-") (.seq (reCls "mp") (.seq (reOpt (reCls "trblxy")) (.seq (reChr '-') reNum))),

  -- /^snap-(start|end|center|align-none)$/
  .seq (reStr "snap-") (reStrs ["start", "end", "center", "align-none"]),

  -- /^snap-(normal|always)$/
  .seq (reStr "snap-") (reStrs ["normal", "always"]),

  -- /^snap-(none|x|y|both|mandatory|proximity)$/
  .seq (reStr "snap-") (reStrs ["none", "x", "y", "both", "mandatory", "proximity"]),

  -- /^appearance-none$/
  reStr "appearance-none",

  -- /^outline(-none|-dashed|-dotted|-double)?$/
  .seq (reStr "outline") (reOpt (reStrs ["-none", "-dashed", "-dotted", "-double"])),

  -- /^outline-\d+$/
  .seq (reStr "outline-") reNum,

  -- /^outline-offset-\d+$/
  .seq (reStr "outline-offset-") reNum,

  -- /^accent-\w+(-\d+)?$/
  .seq (reStr "accent-") (.seq reWord (reOpt (.seq (reChr '-') reNum))),

  -- /^caret-\w+(-\d+)?$/
  .seq (reStr "caret-") (.seq reWord (reOpt (.seq (reChr '-') reNum))),

  -- /^will-change-(auto|scroll|contents|transform)$/
  .seq (reStr "will-change-") (reStrs ["auto", "scroll", "contents", "transform"]),


  -- Accessibility
  -- /^sr-only$/
  reStr "sr-only",

  -- /^not-sr-only$/
  reStr "not-sr-only",

  -- /^forced-color-adjust-(auto|none)$/
  .seq (reStr "forced-color-adjust-") (reStrs ["auto", "none"]),


  -- Tables
  -- /^table(-auto|-fixed)?$/
  .seq (reStr "table") (reOpt (reStrs ["-auto", "-fixed"])),

  -- /^table-(caption|cell|column|column-group|footer-group|header-group|row-group|row)$/
  .seq (reStr "table-") (reStrs ["caption", "cell", "column", "column-group", "footer-group", "header-group", "row-group", "row"]),

  -- /^border-(collapse|separate)$/
  .seq (reStr "border-") (reStrs ["collapse", "separate"]),

  -- /^border-spacing(-[xy])?-\d+$/
  .seq (reStr "border-spacing") (.seq (reOpt (.seq (reChr '-') (reCls "xy"))) (.seq (reChr '-') reNum)),

  -- /^caption-(top|bottom)$/
  .seq (reStr "caption-") (reStrs ["top", "bottom"]),


  -- SVG
  -- /^fill-(none|inherit|current|\w+(-\d+)?)$/
  .seq (reStr "fill-") (reAlts [reStrs ["none", "inherit", "current"], .seq reWord (reOpt (.seq (reChr '-') reNum))]),

  -- /^stroke-(none|inherit|current|\w+(-\d+)?)$/
  .seq (reStr "stroke-") (reAlts [reStrs ["none", "inherit", "current"], .seq reWord (reOpt (.seq (reChr '-') reNum))]),

  -- /^stroke-\d+$/
  .seq (reStr "stroke-") reNum,


  -- Aspect ratio
  -- /^aspect-(auto|square|video)$/
  .seq (reStr "aspect-") (reStrs ["auto", "square", "video"]),

  -- /^aspect-\[\d+\/\d+\]$/
  .seq (reStr "aspect-[") (.seq reNum (.seq (reChr '/') (.seq reNum (reChr ']'))))
]

/-- Entries 151-161 of `UTILITY_PATTERNS` (see the concatenation below). -/
def UTILITY_PATTERNS_7 : List Re := [


  -- Columns
  -- /^columns-\d+$/
  .seq (reStr "columns-") reNum,

  -- /^columns-(auto|3xs|2xs|xs|sm|md|lg|xl|2xl|3xl|4xl|5xl|6xl|7xl)$/
  .seq (reStr "columns-") (reStrs ["auto", "3xs", "2xs", "xs", "sm", "md", "lg", "xl", "2xl", "3xl", "4xl", "5xl", "6xl", "7xl"]),

  -- /^break-(before|after|inside)-(auto|avoid|all|avoid-page|page|left|right|column)$/
  .seq (reStr "break-") (.seq (reStrs ["before", "after", "inside"]) (.seq (reChr '-')
    (reStrs ["auto", "avoid", "all", "avoid-page", "page", "left", "right", "column"]))),


  -- Box decoration
  -- /^box-(border|content)$/
  .seq (reStr "box-") (reStrs ["border", "content"]),

  -- /^decoration-(clone|slice)$/
  .seq (reStr "decoration-") (reStrs ["clone", "slice"]),

  -- /^isolation-(auto|isolate)$/
  .seq (reStr "isolation-") (reStrs ["auto", "isolate"]),


  -- Container
  -- /^container$/
  reStr "container",

  -- /^mx-auto$/
  reStr "mx-auto",


  -- Visibility
  -- /^visible$/
  reStr "visible",

  -- /^invisible$/
  reStr "invisible",

  -- /^collapse$/
  reStr "collapse"
]

/-- `UTILITY_PATTERNS` of `src/utils.ts`: the concatenation, in source
order, of the chunks above (chunked only to keep elaboration cheap). -/
def UTILITY_PATTERNS : List Re :=
  UTILITY_PATTERNS_1 ++ UTILITY_PATTERNS_2 ++ UTILITY_PATTERNS_3 ++ UTILITY_PATTERNS_4 ++ UTILITY_PATTERNS_5 ++ UTILITY_PATTERNS_6 ++ UTILITY_PATTERNS_7

/-! ## Types and configuration (`src/utils.ts`) -/

/-- `HcncClassType` of the source. -/
inductive HcncClassType where
  | block
  | element
  | nestedElement
  | modifier
  | state
  | utility
deriving DecidableEq, Repr

/-- `ValidationResult` of the source (`type` is `HcncClassType | null`,
`message` an optional string). -/
structure ValidationResult where
  valid : Bool
  type : Option HcncClassType
  message : Option String
deriving DecidableEq, Repr

/-- `HcncConfig` of the source.  `customUtilities` holds caller-supplied
utility grammar sources; here they are modelled by their compiled
matchers (`Re`), which covers every configuration whose sources compile.
Malformed sources are modelled separately (`RegexSrc` below).  The
optional boolean fields of the source (absent ≡ `undefined` ≡ false in
every use) are plain booleans. -/
structure HcncConfig where
  customUtilities : List Re := []
  allowUnknown : Bool := false
  strictBem : Bool := false

/-- `defaultConfig` of `src/index.ts` (also the behaviour of every
classification entry point when called with no configuration). -/
def defaultConfig : HcncConfig := {}

/-! ## Classification (`src/utils.ts`) -/

/-- `isUtilityClass` of the source: first the built-in catalog, then the
caller-supplied patterns; a match on any entry suffices. -/
def isUtilityClass (className : String) (customPatterns : List Re := []) : Bool :=
  UTILITY_PATTERNS.any (fun r => reTest r className) ||
    customPatterns.any (fun r => reTest r className)

/-- `isHcncClass` of the source: utilities are excluded first (they may
share the block shape), then any of the four BEM-family grammars
qualifies.  The utility test uses only the built-in catalog (the source
calls `isUtilityClass(className)` with no custom patterns). -/
def isHcncClass (className : String) : Bool :=
  !isUtilityClass className &&
    (isBlock className || isElement className ||
      isNestedElement className || isModifier className)

/-- `getClassType` of the source: state, modifier, nested element,
element, utility (rejected under `strictBem`), block, in that order. -/
def getClassType (className : String) (config : HcncConfig := {}) :
    Option HcncClassType :=
  if isStateClass className then some .state
  else if isModifier className then some .modifier
  else if isNestedElement className then some .nestedElement
  else if isElement className then some .element
  else if isUtilityClass className config.customUtilities then
    if config.strictBem then none else some .utility
  else if isBlock className then some .block
  else none

/-! ## Diagnostics (`validateClassName`) -/

/-- JavaScript `className.replace('__', '_')`: collapse the first
occurrence of a double underscore. -/
def replaceUU : List Char → List Char
  | [] => []
  | [c] => [c]
  | c :: d :: rest =>
    if c = '_' && d = '_' then '_' :: rest
    else c :: replaceUU (d :: rest)

/-- JavaScript `charAt(0).toUpperCase()` of a string, as a string:
empty input gives the empty string; an ASCII lowercase first character
is uppercased, any other first character kept. -/
def upFirst : List Char → List Char
  | [] => []
  | c :: _ => [if isLowC c then Char.ofNat (c.toNat - 32) else c]

/-- The guard of the first diagnostic suggestion, exactly as in the
source: `className.includes('__') && !className.includes('_')`. -/
def collapseSuggCond (className : String) : Bool :=
  has2 '_' className.data && !containsC '_' className.data

/-- The `suggestions` array built by `validateClassName` for a token
that failed classification, in source order. -/
def suggestionList (className : String) : List String :=
  (if collapseSuggCond className then
    ["Use single underscore for first-level elements: \"" ++
      String.mk (replaceUU className.data) ++ "\""]
  else []) ++
  (if (match className.data with
        | 'i' :: 's' :: _ => true
        | _ => false) &&
      !(match className.data with
        | 'i' :: 's' :: c :: _ => isUpC c
        | _ => false) then
    ["State classes should use camelCase: \"is" ++
      String.mk (upFirst (className.data.drop 2)) ++
      String.mk (className.data.drop 3) ++ "\""]
  else []) ++
  (if (match className.data with
        | 'h' :: 'a' :: 's' :: _ => true
        | _ => false) &&
      !(match className.data with
        | 'h' :: 'a' :: 's' :: c :: _ => isUpC c
        | _ => false) then
    ["State classes should use camelCase: \"has" ++
      String.mk (upFirst (className.data.drop 3)) ++
      String.mk (className.data.drop 4) ++ "\""]
  else []) ++
  (if className.data.any isUpC && !isStateClass className then
    ["HCNC classes (except states) should be lowercase"]
  else []) ++
  (if has3 '_' className.data then
    ["Maximum nesting is 2 levels (use __ for nested elements)"]
  else [])

/-- `validateClassName` of the source. -/
def validateClassName (className : String) (config : HcncConfig := {}) :
    ValidationResult :=
  match getClassType className config with
  | some t => ⟨true, some t, none⟩
  | none =>
    if config.allowUnknown then
      ⟨true, none,
        some ("Unknown class \"" ++ className ++ "\" (allowed by config)")⟩
    else
      let suggestions := suggestionList className
      let message :=
        if suggestions.length > 0 then
          "Class \"" ++ className ++ "\" does not match HCNC convention. " ++
            String.intercalate ". " suggestions
        else
          "Class \"" ++ className ++ "\" does not match HCNC naming convention"
      ⟨false, none, some message⟩

example : getClassType "card" = some .block := by decide
example : getClassType "card_info__title" = some .nestedElement := by decide
example : getClassType "mt-2" = some .utility := by decide
example : getClassType "mt-2" { strictBem := true } = none := by decide
example : getClassType "isActive" = some .state := by decide
example : getClassType "from-a_b" = some .element := by decide
example : isHcncClass "from-a_b" = false := by decide
example : getClassType "card___triple" = none := by decide
example : getClassType "mix-blend-___" = some .utility := by decide
example : validateClassName "UnknownThing" { allowUnknown := true } =
    ⟨true, none, some "Unknown class \"UnknownThing\" (allowed by config)"⟩ := by decide
example : validateClassName "card__title" =
    ⟨false, none, some "Class \"card__title\" does not match HCNC naming convention"⟩ := by decide

/-! ## Custom utility sources that may fail to compile

The source compiles each caller-supplied pattern lazily inside the
matching loop (`new RegExp(patternStr)` in `isUtilityClass`); a
malformed source makes the constructor throw, and the exception
propagates out of classification.  This is modelled by `RegexSrc`
(a source either compiles to a matcher or is malformed) and an
`Except`-valued variant of `isUtilityClass`: reaching a malformed
source yields `Except.error` carrying the engine error message, which
names the offending source text. -/

inductive RegexSrc where
  | ok : Re → RegexSrc
  | bad : String → RegexSrc

/-- `new RegExp(patternStr)`: yields the compiled matcher, or throws a
syntax error naming the source. -/
def compileSrc : RegexSrc → Except String Re
  | .ok r => .ok r
  | .bad src => .error ("Invalid regular expression: /" ++ src ++ "/")

/-- The custom-pattern loop of `isUtilityClass`: compile each source in
order, return `true` on the first match, propagate a compile failure. -/
def customLoop (className : String) : List RegexSrc → Except String Bool
  | [] => .ok false
  | p :: ps =>
    match compileSrc p with
    | .error e => .error e
    | .ok r => if reTest r className then .ok true else customLoop className ps

/-- `isUtilityClass` with possibly-malformed custom sources: the
built-in catalog is scanned first (returning early on a match, before
any custom source is compiled), then the custom loop runs. -/
def isUtilityClassE (className : String) (customPatterns : List RegexSrc) :
    Except String Bool :=
  if UTILITY_PATTERNS.any (fun r => reTest r className) then .ok true
  else customLoop className customPatterns

/-! ## SCSS nesting expansion (`expandScssNesting`)

The source splits the input at newlines and processes each trimmed line:
a line matching the selector shape
`/^([.#]?[a-zA-Z_&][a-zA-Z0-9_-]*(?:\s*,\s*[.#]?[a-zA-Z_&][a-zA-Z0-9_-]*)*)\s*\{?\s*$/`
resolves a leading `&` against the innermost open selector
(`stack[stack.length - 1] || ''`), records the dot-stripped form, and is
pushed; a line containing `}` pops one level (`stack.pop()`, a no-op on
an empty stack).  The stack is modelled with its top at the head. -/

/-- JavaScript `\s` restricted to ASCII (the whitespace the inputs here
can contain): space, tab, and the line/page control characters. -/
def wsC (c : Char) : Bool :=
  c = ' ' || c = '\t' || c = '\n' || c = '\r' || c = '\x0b' || c = '\x0c'

/-- `[a-zA-Z_&]`: first character of a selector unit. -/
def selCh1 (c : Char) : Bool := isLowC c || isUpC c || c = '_' || c = '&'

/-- `[a-zA-Z0-9_-]`: later characters of a selector unit. -/
def selCh (c : Char) : Bool :=
  isLowC c || isUpC c || isDigC c || c = '_' || c = '-'

/-- JavaScript `trim()` (ASCII whitespace). -/
def trimC (l : List Char) : List Char :=
  ((l.dropWhile wsC).reverse.dropWhile wsC).reverse

/-- Parse one selector unit `[.#]?[a-zA-Z_&][a-zA-Z0-9_-]*` at the head
of the list; return the consumed characters and the remainder. -/
def selUnit : List Char → Option (List Char × List Char)
  | [] => none
  | c :: cs =>
    if c = '.' || c = '#' then
      match cs with
      | d :: ds =>
        if selCh1 d then some (c :: d :: ds.takeWhile selCh, ds.dropWhile selCh)
        else none
      | [] => none
    else if selCh1 c then some (c :: cs.takeWhile selCh, cs.dropWhile selCh)
    else none

/-- After a unit: iterate `(?:\s*,\s*<unit>)*`, then accept
`\s*\{?\s*$`.  `acc` is the capture built so far (the capture group of
the source regex includes the comma and whitespace characters as they
appear).  Each iteration consumes at least two characters, so the fuel
`length + 1` used by `selMatch` is never exhausted. -/
def selRest (acc : List Char) : Nat → List Char → Option (List Char)
  | 0, _ => none
  | fuel + 1, l =>
    let w1 := l.takeWhile wsC
    match l.dropWhile wsC with
    | ',' :: r =>
      let w2 := r.takeWhile wsC
      match selUnit (r.dropWhile wsC) with
      | some (u, r2) => selRest (acc ++ w1 ++ [','] ++ w2 ++ u) fuel r2
      | none => none
    | '{' :: r2 => if r2.all wsC then some acc else none
    | [] => some acc
    | _ => none

/-- The anchored selector-line match of the source, returning the text
of capture group 1 (the selector list) when the line matches. -/
def selMatch (l : List Char) : Option (List Char) :=
  match selUnit l with
  | some (u, r) => selRest u (r.length + 1) r
  | none => none

/-- The state threaded through the line loop of `expandScssNesting`. -/
structure ScssState where
  expanded : List (List Char)
  stack : List (List Char)
deriving DecidableEq, Repr

/-- One iteration of the line loop of `expandScssNesting`. -/
def processLine (st : ScssState) (line : List Char) : ScssState :=
  let trimmed := trimC line
  let st1 :=
    match selMatch trimmed with
    | some sel =>
      let resolved :=
        match sel with
        | '&' :: rest => (st.stack.head?.getD []) ++ rest
        | _ => sel
      let exp2 :=
        match resolved with
        | '.' :: r => st.expanded ++ [r]
        | _ => st.expanded
      { expanded := exp2, stack := resolved :: st.stack }
    | none => st
  if containsC '}' trimmed then { st1 with stack := st1.stack.tail } else st1

/-- `expandScssNesting` of the source. -/
def expandScssNesting (scss : String) : List String :=
  (((splitSep '\n' scss.data).foldl processLine ⟨[], []⟩).expanded).map
    fun l => String.mk l

/-! ## Lemmas: runs of a repeated character -/

theorem starts2_cons_false {d a : Char} (t : List Char) (ha : ¬a = d) :
    starts2 d (a :: t) = false := by
  cases t with
  | nil => rfl
  | cons b t2 => simp [starts2, ha]

theorem starts3_cons_false {d a : Char} (t : List Char) (ha : ¬a = d) :
    starts3 d (a :: t) = false := by
  cases t with
  | nil => rfl
  | cons b t2 =>
    cases t2 with
    | nil => rfl
    | cons c t3 => simp [starts3, ha]

theorem has2_cons (d a : Char) (t : List Char) :
    has2 d (a :: t) = (starts2 d (a :: t) || has2 d t) := rfl

theorem has3_cons (d a : Char) (t : List Char) :
    has3 d (a :: t) = (starts3 d (a :: t) || has3 d t) := rfl

theorem has2_false_of_not_mem {d : Char} :
    ∀ l : List Char, d ∉ l → has2 d l = false := by
  intro l
  induction l with
  | nil => intro _; rfl
  | cons a t ih =>
    intro h
    have ha : ¬a = d := fun e => h (e ▸ List.mem_cons_self a t)
    rw [has2_cons, starts2_cons_false t ha,
      ih (fun hm => h (List.mem_cons_of_mem a hm))]
    rfl

theorem has3_false_of_not_mem {d : Char} :
    ∀ l : List Char, d ∉ l → has3 d l = false := by
  intro l
  induction l with
  | nil => intro _; rfl
  | cons a t ih =>
    intro h
    have ha : ¬a = d := fun e => h (e ▸ List.mem_cons_self a t)
    rw [has3_cons, starts3_cons_false t ha,
      ih (fun hm => h (List.mem_cons_of_mem a hm))]
    rfl

theorem has2_mem {d : Char} :
    ∀ l : List Char, has2 d l = true → d ∈ l := by
  intro l
  induction l with
  | nil => intro h; exact absurd h (by simp [has2])
  | cons a t ih =>
    intro h
    rw [has2_cons, Bool.or_eq_true] at h
    rcases h with h | h
    · cases t with
      | nil => exact absurd h (by simp [starts2])
      | cons b t2 =>
        simp only [starts2, Bool.and_eq_true, decide_eq_true_eq] at h
        exact h.1 ▸ List.mem_cons_self a (b :: t2)
    · exact List.mem_cons_of_mem a (ih h)

theorem has3_mem {d : Char} :
    ∀ l : List Char, has3 d l = true → d ∈ l := by
  intro l
  induction l with
  | nil => intro h; exact absurd h (by simp [has3])
  | cons a t ih =>
    intro h
    rw [has3_cons, Bool.or_eq_true] at h
    rcases h with h | h
    · cases t with
      | nil => exact absurd h (by simp [starts3])
      | cons b t2 =>
        cases t2 with
        | nil => exact absurd h (by simp [starts3])
        | cons c t3 =>
          simp only [starts3, Bool.and_eq_true, decide_eq_true_eq] at h
          exact h.1.1 ▸ List.mem_cons_self a (b :: c :: t3)
    · exact List.mem_cons_of_mem a (ih h)

theorem has3_append_left {d : Char} :
    ∀ x y : List Char, d ∉ x → has3 d (x ++ y) = has3 d y := by
  intro x
  induction x with
  | nil => intro y _; rfl
  | cons a x2 ih =>
    intro y h
    have ha : ¬a = d := fun e => h (e ▸ List.mem_cons_self a x2)
    rw [List.cons_append, has3_cons, starts3_cons_false _ ha,
      ih y (fun hm => h (List.mem_cons_of_mem a hm))]
    rfl

theorem starts3_append_right {d a : Char} :
    ∀ (x y : List Char), d ∉ y → starts3 d (a :: (x ++ y)) = starts3 d (a :: x) := by
  intro x
  induction x with
  | nil =>
    intro y hy
    cases y with
    | nil => rfl
    | cons b y2 =>
      have hb : ¬b = d := fun e => hy (e ▸ List.mem_cons_self b y2)
      cases y2 with
      | nil => simp [starts3, hb]
      | cons c y3 => simp [starts3, hb]
  | cons b x2 ih =>
    intro y hy
    cases x2 with
    | nil =>
      cases y with
      | nil => rfl
      | cons c y2 =>
        have hc : ¬c = d := fun e => hy (e ▸ List.mem_cons_self c y2)
        simp [starts3, hc]
    | cons c x3 => rfl

theorem has3_append_right {d : Char} :
    ∀ x y : List Char, d ∉ y → has3 d (x ++ y) = has3 d x := by
  intro x
  induction x with
  | nil => intro y hy; exact has3_false_of_not_mem y hy
  | cons a x2 ih =>
    intro y hy
    rw [List.cons_append, has3_cons, starts3_append_right x2 y hy, ih y hy,
      ← has3_cons]

theorem has2_append_ddy (d : Char) :
    ∀ x y : List Char, has2 d (x ++ d :: d :: y) = true := by
  intro x
  induction x with
  | nil => simp [has2_cons, starts2]
  | cons a x2 ih => intro y; rw [List.cons_append, has2_cons, ih y]; simp

theorem has3_d_sep {d : Char} :
    ∀ e : List Char, d ∉ e → has3 d (d :: e) = false := by
  intro e he
  rw [has3_cons, has3_false_of_not_mem e he]
  cases e with
  | nil => rfl
  | cons c e2 =>
    have hc : ¬c = d := fun h => he (h ▸ List.mem_cons_self c e2)
    cases e2 with
    | nil => rfl
    | cons c2 e3 => simp [starts3, hc]

theorem has3_dd_tail {d : Char} :
    ∀ n : List Char, d ∉ n → has3 d (d :: d :: n) = false := by
  intro n hn
  rw [has3_cons, has3_d_sep n hn]
  cases n with
  | nil => rfl
  | cons c n2 =>
    have hc : ¬c = d := fun h => hn (h ▸ List.mem_cons_self c n2)
    simp [starts3, hc]

theorem starts3_dc_false {d c : Char} (t : List Char) (hc : ¬c = d) :
    starts3 d (d :: c :: t) = false := by
  cases t with
  | nil => rfl
  | cons b t2 => simp [starts3, hc]

theorem has3_sep_seg_tail {d : Char} :
    ∀ e n : List Char, d ∉ e → e ≠ [] → d ∉ n →
      has3 d (d :: (e ++ d :: d :: n)) = false := by
  intro e n he hne hn
  cases e with
  | nil => exact absurd rfl hne
  | cons c e2 =>
    have hc : ¬c = d := fun h => he (h ▸ List.mem_cons_self c e2)
    rw [has3_cons, List.cons_append, starts3_dc_false _ hc,
      ← List.cons_append, has3_append_left (c :: e2) (d :: d :: n) he,
      has3_dd_tail n hn]
    rfl

/-! ## Lemmas: splitting and joining -/

theorem splitSep_ne_nil (d : Char) : ∀ l : List Char, splitSep d l ≠ [] := by
  intro l
  cases l with
  | nil => simp [splitSep]
  | cons c cs =>
    simp only [splitSep]
    split
    · simp
    · split <;> simp

theorem joinSep_splitSep (d : Char) :
    ∀ l : List Char, joinSep d (splitSep d l) = l := by
  intro l
  induction l with
  | nil => rfl
  | cons c cs ih =>
    by_cases hc : c = d
    · rw [show splitSep d (c :: cs) = [] :: splitSep d cs by
        simp [splitSep, hc]]
      rcases hr : splitSep d cs with _ | ⟨q, rs⟩
      · exact absurd hr (splitSep_ne_nil d cs)
      · rw [hr] at ih
        rw [show joinSep d ([] :: q :: rs) = d :: joinSep d (q :: rs) from rfl,
          ih, hc]
    · rcases hr : splitSep d cs with _ | ⟨p, ps⟩
      · exact absurd hr (splitSep_ne_nil d cs)
      · rw [show splitSep d (c :: cs) = (c :: p) :: ps by
          simp [splitSep, hc, hr]]
        rw [hr] at ih
        cases ps with
        | nil =>
          rw [show joinSep d [c :: p] = c :: p from rfl]
          rw [show joinSep d [p] = p from rfl] at ih
          rw [ih]
        | cons q qs =>
          rw [show joinSep d ((c :: p) :: q :: qs) =
              (c :: p) ++ d :: joinSep d (q :: qs) from rfl]
          rw [show joinSep d (p :: q :: qs) =
              p ++ d :: joinSep d (q :: qs) from rfl] at ih
          rw [List.cons_append, ih]

theorem not_mem_splitSep (d : Char) :
    ∀ l p, p ∈ splitSep d l → d ∉ p := by
  intro l
  induction l with
  | nil =>
    intro p hp
    simp [splitSep] at hp
    simp [hp]
  | cons c cs ih =>
    intro p hp
    by_cases hc : c = d
    · rw [show splitSep d (c :: cs) = [] :: splitSep d cs by
        simp [splitSep, hc]] at hp
      rcases List.mem_cons.mp hp with h | h
      · simp [h]
      · exact ih p h
    · rcases hr : splitSep d cs with _ | ⟨q, qs⟩
      · exact absurd hr (splitSep_ne_nil d cs)
      · rw [show splitSep d (c :: cs) = (c :: q) :: qs by
          simp [splitSep, hc, hr]] at hp
        rcases List.mem_cons.mp hp with h | h
        · subst h
          intro hm
          rcases List.mem_cons.mp hm with h2 | h2
          · exact hc h2.symm
          · exact ih q (hr ▸ List.mem_cons_self q qs) h2
        · exact ih p (hr ▸ List.mem_cons_of_mem q h)

theorem splitSep_single_of_not_mem (d : Char) :
    ∀ l, d ∉ l → splitSep d l = [l] := by
  intro l
  induction l with
  | nil => intro _; rfl
  | cons c cs ih =>
    intro h
    have hc : ¬c = d := fun e => h (e ▸ List.mem_cons_self c cs)
    rw [show splitSep d (c :: cs) =
        (match splitSep d cs with
          | p :: ps => (c :: p) :: ps
          | [] => [[c]]) by simp [splitSep, hc]]
    rw [ih (fun hm => h (List.mem_cons_of_mem c hm))]

theorem sep_mem_of_parts2 (d : Char) (l : List Char) (p q : List Char)
    (ps : List (List Char)) (h : splitSep d l = p :: q :: ps) : d ∈ l := by
  have hj := joinSep_splitSep d l
  rw [h] at hj
  rw [← hj,
    show joinSep d (p :: q :: ps) = p ++ d :: joinSep d (q :: ps) from rfl]
  exact List.mem_append_right p (List.mem_cons_self d _)

theorem mem_joinSep (d : Char) :
    ∀ (parts : List (List Char)) (c : Char), c ∈ joinSep d parts →
      c = d ∨ ∃ p ∈ parts, c ∈ p := by
  intro parts
  induction parts with
  | nil => intro c hc; simp [joinSep] at hc
  | cons p ps ih =>
    intro c hc
    cases ps with
    | nil =>
      rw [show joinSep d [p] = p from rfl] at hc
      exact Or.inr ⟨p, List.mem_cons_self p [], hc⟩
    | cons q qs =>
      rw [show joinSep d (p :: q :: qs) = p ++ d :: joinSep d (q :: qs)
        from rfl] at hc
      rcases List.mem_append.mp hc with h | h
      · exact Or.inr ⟨p, List.mem_cons_self p _, h⟩
      · rcases List.mem_cons.mp h with h | h
        · exact Or.inl h
        · rcases ih c h with h2 | ⟨r, hr, hcr⟩
          · exact Or.inl h2
          · exact Or.inr ⟨r, List.mem_cons_of_mem p hr, hcr⟩

theorem joinSep_cons_cons (d c : Char) (q2 : List Char)
    (ps : List (List Char)) :
    ∃ t, joinSep d ((c :: q2) :: ps) = c :: t := by
  cases ps with
  | nil => exact ⟨q2, rfl⟩
  | cons r rs => exact ⟨q2 ++ d :: joinSep d (r :: rs), rfl⟩

theorem splitDD_join :
    ∀ (l b f : List Char), splitDD l = some (b, f) →
      l = b ++ '-' :: '-' :: f := by
  intro l
  induction l with
  | nil => intro b f h; simp [splitDD] at h
  | cons c cs ih =>
    intro b f h
    cases cs with
    | nil => simp [splitDD] at h
    | cons e rest =>
      by_cases hce : c = '-' ∧ e = '-'
      · rw [show splitDD (c :: e :: rest) = some ([], rest) by
          simp [splitDD, hce.1, hce.2]] at h
        injection h with h2
        injection h2 with hb hf
        rw [← hb, ← hf, hce.1, hce.2]
        rfl
      · have hcond : ¬(c = '-' && e = '-') = true := by
          simp only [Bool.and_eq_true, decide_eq_true_eq]
          exact hce
        rw [show splitDD (c :: e :: rest) =
            (match splitDD (e :: rest) with
              | some (a, b) => some (c :: a, b)
              | none => none) by
          simp only [splitDD]
          rw [if_neg hcond]] at h
        rcases hs : splitDD (e :: rest) with _ | ⟨a2, b2⟩
        · rw [hs] at h; simp at h
        · rw [hs] at h
          simp only [Option.some.injEq, Prod.mk.injEq] at h
          rw [← h.1, ← h.2, List.cons_append]
          rw [ih a2 b2 hs]

/-! ## Lemmas: segments -/

theorem firstPart_chars {p : List Char} (h : firstPart p = true) :
    ∀ c ∈ p, lnOK c = true := by
  cases p with
  | nil => simp [firstPart] at h
  | cons c0 cs =>
    simp only [firstPart, Bool.and_eq_true, List.all_eq_true] at h
    intro c hc
    rcases List.mem_cons.mp hc with h2 | h2
    · subst h2
      simp only [lnOK, Bool.or_eq_true]
      exact Or.inl h.1
    · exact h.2 c h2

theorem firstPart_ne_nil {p : List Char} (h : firstPart p = true) : p ≠ [] := by
  cases p with
  | nil => simp [firstPart] at h
  | cons c0 cs => simp

theorem tailPart_chars {p : List Char} (h : tailPart p = true) :
    ∀ c ∈ p, lnOK c = true := by
  simp only [tailPart, Bool.and_eq_true, List.all_eq_true] at h
  exact h.2

theorem tailPart_ne_nil {p : List Char} (h : tailPart p = true) : p ≠ [] := by
  simp only [tailPart, Bool.and_eq_true] at h
  cases p with
  | nil => simp [List.isEmpty] at h
  | cons c0 cs => simp

theorem isSegL_parts {l : List Char} (h : isSegL l = true) :
    ∃ p ps, splitSep '-' l = p :: ps ∧ firstPart p = true ∧
      ps.all tailPart = true := by
  rcases hs : splitSep '-' l with _ | ⟨p, ps⟩
  · exact absurd hs (splitSep_ne_nil '-' l)
  · rw [isSegL, hs] at h
    simp only [Bool.and_eq_true] at h
    exact ⟨p, ps, rfl, h.1, h.2⟩

theorem isSegL_chars {l : List Char} (h : isSegL l = true) :
    ∀ c ∈ l, lnOK c = true ∨ c = '-' := by
  rcases isSegL_parts h with ⟨p, ps, hs, hp, hps⟩
  intro c hc
  rw [← joinSep_splitSep '-' l, hs] at hc
  rcases mem_joinSep '-' (p :: ps) c hc with h2 | ⟨q, hq, hcq⟩
  · exact Or.inr h2
  · rcases List.mem_cons.mp hq with h3 | h3
    · exact Or.inl (firstPart_chars hp c (h3 ▸ hcq))
    · rw [List.all_eq_true] at hps
      exact Or.inl (tailPart_chars (hps q h3) c hcq)

theorem isSegL_ne_nil {l : List Char} (h : isSegL l = true) : l ≠ [] := by
  intro he
  subst he
  simp [isSegL, splitSep, firstPart] at h

theorem isSegL_not_us {l : List Char} (h : isSegL l = true) : '_' ∉ l := by
  intro hm
  rcases isSegL_chars h '_' hm with h2 | h2
  · simp [lnOK, isLowC, isDigC] at h2
  · simp at h2

theorem isSegL_false_of_us {l : List Char} (h : '_' ∈ l) :
    isSegL l = false := by
  cases hs : isSegL l
  · rfl
  · exact absurd h (isSegL_not_us hs)

theorem has2_d_cons {d : Char} (y : List Char)
    (hy : y = [] ∨ ∃ c t, y = c :: t ∧ ¬c = d) (h : has2 d y = false) :
    has2 d (d :: y) = false := by
  rw [has2_cons, h]
  rcases hy with hy | ⟨c, t, hy, hc⟩
  · subst hy; rfl
  · subst hy; simp [starts2, hc]

theorem has2_sep_append {d : Char} :
    ∀ p y : List Char, d ∉ p → p ≠ [] →
      (y = [] ∨ ∃ c t, y = c :: t ∧ ¬c = d) → has2 d y = false →
      has2 d (p ++ d :: y) = false := by
  intro p
  induction p with
  | nil => intro y _ hne _ _; exact absurd rfl hne
  | cons a p2 ih =>
    intro y hp _ hy h
    have ha : ¬a = d := fun e => hp (e ▸ List.mem_cons_self a p2)
    cases p2 with
    | nil =>
      rw [List.cons_append, List.nil_append, has2_cons,
        starts2_cons_false _ ha, has2_d_cons y hy h]
      rfl
    | cons b p3 =>
      rw [List.cons_append, has2_cons, starts2_cons_false _ ha,
        ih y (fun hm => hp (List.mem_cons_of_mem a hm)) (by simp) hy h]
      rfl

theorem has2_join_false {d : Char} :
    ∀ parts : List (List Char), (∀ p ∈ parts, d ∉ p) →
      (∀ p ∈ parts, p ≠ []) → has2 d (joinSep d parts) = false := by
  intro parts
  induction parts with
  | nil => intro _ _; rfl
  | cons p ps ih =>
    intro hmem hne
    cases ps with
    | nil =>
      rw [show joinSep d [p] = p from rfl]
      exact has2_false_of_not_mem p (hmem p (List.mem_cons_self p []))
    | cons q qs =>
      rw [show joinSep d (p :: q :: qs) = p ++ d :: joinSep d (q :: qs)
        from rfl]
      have hq := hne q (List.mem_cons_of_mem p (List.mem_cons_self q qs))
      rcases q with _ | ⟨c, q2⟩
      · exact absurd rfl hq
      · rcases joinSep_cons_cons d c q2 qs with ⟨t, ht⟩
        have hcd : ¬c = d := fun e =>
          hmem (c :: q2) (List.mem_cons_of_mem p (List.mem_cons_self _ qs))
            (e ▸ List.mem_cons_self c q2)
        exact has2_sep_append p (joinSep d ((c :: q2) :: qs))
          (hmem p (List.mem_cons_self p _))
          (hne p (List.mem_cons_self p _))
          (Or.inr ⟨c, t, ht, hcd⟩)
          (ih (fun r hr => hmem r (List.mem_cons_of_mem p hr))
            (fun r hr => hne r (List.mem_cons_of_mem p hr)))

theorem isSegL_no_hh {l : List Char} (h : isSegL l = true) :
    has2 '-' l = false := by
  rcases isSegL_parts h with ⟨p, ps, hs, hp, hps⟩
  rw [← joinSep_splitSep '-' l, hs]
  apply has2_join_false
  · intro q hq
    exact not_mem_splitSep '-' l q (hs ▸ hq)
  · intro q hq
    rcases List.mem_cons.mp hq with h2 | h2
    · exact h2 ▸ firstPart_ne_nil hp
    · rw [List.all_eq_true] at hps
      exact tailPart_ne_nil (hps q h2)

/-! ## Lemmas: grammar decompositions -/

theorem isElemL_decomp {l : List Char} (h : isElemL l = true) :
    ∃ b e, l = b ++ '_' :: e ∧ isSegL b = true ∧ isSegL e = true ∧
      '_' ∉ b ∧ '_' ∉ e := by
  rcases hs : splitSep '_' l with _ | ⟨b, _ | ⟨e, _ | ⟨z, zs⟩⟩⟩
  · exact absurd hs (splitSep_ne_nil '_' l)
  · rw [isElemL, hs] at h; simp at h
  · rw [isElemL, hs] at h
    simp only [Bool.and_eq_true] at h
    have hj := joinSep_splitSep '_' l
    rw [hs] at hj
    refine ⟨b, e, ?_, h.1, h.2, ?_, ?_⟩
    · rw [← hj]; rfl
    · exact not_mem_splitSep '_' l b (hs ▸ List.mem_cons_self b _)
    · exact not_mem_splitSep '_' l e
        (hs ▸ List.mem_cons_of_mem b (List.mem_cons_self e _))
  · rw [isElemL, hs] at h; simp at h

theorem isNestedL_decomp {l : List Char} (h : isNestedL l = true) :
    ∃ b e n, l = b ++ '_' :: (e ++ '_' :: '_' :: n) ∧
      isSegL b = true ∧ isSegL e = true ∧ isSegL n = true ∧
      '_' ∉ b ∧ '_' ∉ e ∧ '_' ∉ n := by
  rcases hs : splitSep '_' l with _ | ⟨b, _ | ⟨e, _ | ⟨z, _ | ⟨n, _ | rest⟩⟩⟩⟩
  · exact absurd hs (splitSep_ne_nil '_' l)
  · rw [isNestedL, hs] at h; simp at h
  · rw [isNestedL, hs] at h; simp at h
  · rw [isNestedL, hs] at h
    cases z with
    | nil => simp at h
    | cons c z2 => simp at h
  · cases z with
    | nil =>
      rw [isNestedL, hs] at h
      simp only [Bool.and_eq_true] at h
      have hj := joinSep_splitSep '_' l
      rw [hs] at hj
      refine ⟨b, e, n, ?_, h.1.1, h.1.2, h.2, ?_, ?_, ?_⟩
      · rw [← hj]; rfl
      · exact not_mem_splitSep '_' l b (hs ▸ List.mem_cons_self b _)
      · exact not_mem_splitSep '_' l e
          (hs ▸ List.mem_cons_of_mem b (List.mem_cons_self e _))
      · exact not_mem_splitSep '_' l n
          (hs ▸ List.mem_cons_of_mem b (List.mem_cons_of_mem e
            (List.mem_cons_of_mem [] (List.mem_cons_self n _))))
    | cons c z2 =>
      rw [isNestedL, hs] at h
      simp at h
  · rw [isNestedL, hs] at h
    cases z with
    | nil => simp at h
    | cons c z2 => simp at h

theorem isBaseL_decomp {b : List Char} (h : isBaseL b = true) :
    (isSegL b = true) ∨
    (∃ x y, b = x ++ '_' :: y ∧ isSegL x = true ∧ isSegL y = true ∧
      '_' ∉ x ∧ '_' ∉ y) ∨
    (∃ x y, b = x ++ '_' :: '_' :: y ∧ isSegL x = true ∧ isSegL y = true ∧
      '_' ∉ x ∧ '_' ∉ y) ∨
    (∃ x y z, b = x ++ '_' :: (y ++ '_' :: '_' :: z) ∧ isSegL x = true ∧
      isSegL y = true ∧ isSegL z = true ∧ '_' ∉ x ∧ '_' ∉ y ∧ '_' ∉ z) := by
  have hj := joinSep_splitSep '_' b
  rcases hs : splitSep '_' b with _ | ⟨x, _ | ⟨y, _ | ⟨z, _ | ⟨w, _ | rest⟩⟩⟩⟩
  · exact absurd hs (splitSep_ne_nil '_' b)
  · rw [isBaseL, hs] at h
    rw [hs] at hj
    rw [show joinSep '_' [x] = x from rfl] at hj
    exact Or.inl (hj ▸ h)
  · rw [isBaseL, hs] at h
    simp only [Bool.and_eq_true] at h
    rw [hs] at hj
    refine Or.inr (Or.inl ⟨x, y, ?_, h.1, h.2, ?_, ?_⟩)
    · rw [← hj]; rfl
    · exact not_mem_splitSep '_' b x (hs ▸ List.mem_cons_self x _)
    · exact not_mem_splitSep '_' b y
        (hs ▸ List.mem_cons_of_mem x (List.mem_cons_self y _))
  · cases y with
    | nil =>
      rw [isBaseL, hs] at h
      simp only [Bool.and_eq_true] at h
      rw [hs] at hj
      refine Or.inr (Or.inr (Or.inl ⟨x, z, ?_, h.1, h.2, ?_, ?_⟩))
      · rw [← hj]; rfl
      · exact not_mem_splitSep '_' b x (hs ▸ List.mem_cons_self x _)
      · exact not_mem_splitSep '_' b z
          (hs ▸ List.mem_cons_of_mem x (List.mem_cons_of_mem []
            (List.mem_cons_self z _)))
    | cons c y2 =>
      rw [isBaseL, hs] at h
      simp at h
  · cases z with
    | nil =>
      rw [isBaseL, hs] at h
      simp only [Bool.and_eq_true] at h
      rw [hs] at hj
      refine Or.inr (Or.inr (Or.inr ⟨x, y, w, ?_, h.1.1, h.1.2, h.2,
        ?_, ?_, ?_⟩))
      · rw [← hj]; rfl
      · exact not_mem_splitSep '_' b x (hs ▸ List.mem_cons_self x _)
      · exact not_mem_splitSep '_' b y
          (hs ▸ List.mem_cons_of_mem x (List.mem_cons_self y _))
      · exact not_mem_splitSep '_' b w
          (hs ▸ List.mem_cons_of_mem x (List.mem_cons_of_mem y
            (List.mem_cons_of_mem [] (List.mem_cons_self w _))))
    | cons c z2 =>
      rw [isBaseL, hs] at h
      simp at h
  · rw [isBaseL, hs] at h
    cases y with
    | nil =>
      cases z with
      | nil => simp at h
      | cons c z2 => simp at h
    | cons c y2 =>
      cases z with
      | nil => simp at h
      | cons c2 z2 => simp at h

theorem isModifierL_decomp {l : List Char} (h : isModifierL l = true) :
    ∃ b f, l = b ++ '-' :: '-' :: f ∧ isBaseL b = true ∧ isSegL f = true := by
  rcases hdd : splitDD l with _ | ⟨b, f⟩
  · rw [isModifierL, hdd] at h; simp at h
  · rw [isModifierL, hdd] at h
    simp only [Bool.and_eq_true] at h
    exact ⟨b, f, splitDD_join l b f hdd, h.1, h.2⟩

/-! ## Lemmas: character content and the state grammar -/

/-- The characters that can occur in a BEM-family token:
`[a-z0-9]`, hyphen, underscore. -/
def charOK (c : Char) : Bool := lnOK c || c = '-' || c = '_'

theorem charOK_of_lnOK {c : Char} (h : lnOK c = true) : charOK c = true := by
  simp [charOK, h]

theorem isSegL_charOK {l : List Char} (h : isSegL l = true) :
    ∀ c ∈ l, charOK c = true := by
  intro c hc
  rcases isSegL_chars h c hc with h2 | h2
  · exact charOK_of_lnOK h2
  · simp [charOK, h2]

theorem isBaseL_charOK {b : List Char} (h : isBaseL b = true) :
    ∀ c ∈ b, charOK c = true := by
  intro c hc
  rcases isBaseL_decomp h with h2 | ⟨x, y, he, hx, hy, _, _⟩ |
    ⟨x, y, he, hx, hy, _, _⟩ | ⟨x, y, z, he, hx, hy, hz, _, _, _⟩
  · exact isSegL_charOK h2 c hc
  · subst he
    rcases List.mem_append.mp hc with h3 | h3
    · exact isSegL_charOK hx c h3
    · rcases List.mem_cons.mp h3 with h4 | h4
      · simp [charOK, h4]
      · exact isSegL_charOK hy c h4
  · subst he
    rcases List.mem_append.mp hc with h3 | h3
    · exact isSegL_charOK hx c h3
    · rcases List.mem_cons.mp h3 with h4 | h4
      · simp [charOK, h4]
      · rcases List.mem_cons.mp h4 with h5 | h5
        · simp [charOK, h5]
        · exact isSegL_charOK hy c h5
  · subst he
    rcases List.mem_append.mp hc with h3 | h3
    · exact isSegL_charOK hx c h3
    · rcases List.mem_cons.mp h3 with h4 | h4
      · simp [charOK, h4]
      · rcases List.mem_append.mp h4 with h5 | h5
        · exact isSegL_charOK hy c h5
        · rcases List.mem_cons.mp h5 with h6 | h6
          · simp [charOK, h6]
          · rcases List.mem_cons.mp h6 with h7 | h7
            · simp [charOK, h7]
            · exact isSegL_charOK hz c h7

theorem isElemL_charOK {l : List Char} (h : isElemL l = true) :
    ∀ c ∈ l, charOK c = true := by
  intro c hc
  rcases isElemL_decomp h with ⟨b, e, he, hb, hee, _, _⟩
  subst he
  rcases List.mem_append.mp hc with h3 | h3
  · exact isSegL_charOK hb c h3
  · rcases List.mem_cons.mp h3 with h4 | h4
    · simp [charOK, h4]
    · exact isSegL_charOK hee c h4

theorem isNestedL_charOK {l : List Char} (h : isNestedL l = true) :
    ∀ c ∈ l, charOK c = true := by
  intro c hc
  rcases isNestedL_decomp h with ⟨b, e, n, he, hb, hee, hn, _, _, _⟩
  subst he
  rcases List.mem_append.mp hc with h3 | h3
  · exact isSegL_charOK hb c h3
  · rcases List.mem_cons.mp h3 with h4 | h4
    · simp [charOK, h4]
    · rcases List.mem_append.mp h4 with h5 | h5
      · exact isSegL_charOK hee c h5
      · rcases List.mem_cons.mp h5 with h6 | h6
        · simp [charOK, h6]
        · rcases List.mem_cons.mp h6 with h7 | h7
          · simp [charOK, h7]
          · exact isSegL_charOK hn c h7

theorem isModifierL_charOK {l : List Char} (h : isModifierL l = true) :
    ∀ c ∈ l, charOK c = true := by
  intro c hc
  rcases isModifierL_decomp h with ⟨b, f, he, hb, hf⟩
  subst he
  rcases List.mem_append.mp hc with h3 | h3
  · exact isBaseL_charOK hb c h3
  · rcases List.mem_cons.mp h3 with h4 | h4
    · simp [charOK, h4]
    · rcases List.mem_cons.mp h4 with h5 | h5
      · simp [charOK, h5]
      · exact isSegL_charOK hf c h5

theorem isUpC_not_charOK {c : Char} (h : isUpC c = true) :
    charOK c = false := by
  cases hc : charOK c
  · rfl
  · exfalso
    simp only [isUpC, Bool.and_eq_true, decide_eq_true_eq] at h
    simp only [charOK, lnOK, isLowC, isDigC, Bool.or_eq_true,
      Bool.and_eq_true, decide_eq_true_eq] at hc
    rcases hc with ((h2 | h2) | h2) | h2
    · omega
    · omega
    · rw [h2] at h; exact absurd h (by decide)
    · rw [h2] at h; exact absurd h (by decide)

theorem isStateL_decomp {l : List Char} (h : isStateL l = true) :
    ∃ c rest, (l = 'i' :: 's' :: c :: rest ∨ l = 'h' :: 'a' :: 's' :: c :: rest) ∧
      isUpC c = true ∧ rest.all alnumC = true := by
  unfold isStateL at h
  split at h
  · next c rest =>
    simp only [Bool.and_eq_true] at h
    exact ⟨c, rest, Or.inl rfl, h.1, h.2⟩
  · next c rest =>
    simp only [Bool.and_eq_true] at h
    exact ⟨c, rest, Or.inr rfl, h.1, h.2⟩
  · simp at h

theorem isStateL_upper {l : List Char} (h : isStateL l = true) :
    ∃ c, c ∈ l ∧ isUpC c = true := by
  rcases isStateL_decomp h with ⟨c, rest, hl | hl, hup, _⟩ <;>
    exact ⟨c, by subst hl; simp, hup⟩

theorem isStateL_not_us {l : List Char} (h : isStateL l = true) :
    '_' ∉ l := by
  rcases isStateL_decomp h with ⟨c, rest, hl | hl, hup, hall⟩
  · subst hl
    intro hm
    simp only [List.mem_cons] at hm
    rw [List.all_eq_true] at hall
    rcases hm with h2 | h2 | h2 | h2
    · simp at h2
    · simp at h2
    · rw [← h2] at hup; exact absurd hup (by decide)
    · have := hall '_' h2; exact absurd this (by decide)
  · subst hl
    intro hm
    simp only [List.mem_cons] at hm
    rw [List.all_eq_true] at hall
    rcases hm with h2 | h2 | h2 | h2 | h2
    · simp at h2
    · simp at h2
    · simp at h2
    · rw [← h2] at hup; exact absurd hup (by decide)
    · have := hall '_' h2; exact absurd this (by decide)

theorem isStateL_not_us3 {l : List Char} (h : isStateL l = true) :
    has3 '_' l = false := has3_false_of_not_mem l (isStateL_not_us h)

/-! ## Lemmas: no grammar accepts a triple underscore -/

theorem isSegL_no3 {l : List Char} (h : isSegL l = true) :
    has3 '_' l = false := has3_false_of_not_mem l (isSegL_not_us h)

theorem isElemL_no3 {l : List Char} (h : isElemL l = true) :
    has3 '_' l = false := by
  rcases isElemL_decomp h with ⟨b, e, he, _, _, hb, hee⟩
  subst he
  rw [has3_append_left b ('_' :: e) hb]
  exact has3_d_sep e hee

theorem isNestedL_no3 {l : List Char} (h : isNestedL l = true) :
    has3 '_' l = false := by
  rcases isNestedL_decomp h with ⟨b, e, n, he, _, hseg, _, hb, hee, hn⟩
  subst he
  rw [has3_append_left b _ hb]
  exact has3_sep_seg_tail e n hee (isSegL_ne_nil hseg) hn

theorem isBaseL_no3 {b : List Char} (h : isBaseL b = true) :
    has3 '_' b = false := by
  rcases isBaseL_decomp h with h2 | ⟨x, y, he, _, _, hx, hy⟩ |
    ⟨x, y, he, _, _, hx, hy⟩ | ⟨x, y, z, he, _, hseg, _, hx, hy, hz⟩
  · exact isSegL_no3 h2
  · subst he
    rw [has3_append_left x ('_' :: y) hx]
    exact has3_d_sep y hy
  · subst he
    rw [has3_append_left x ('_' :: '_' :: y) hx]
    exact has3_dd_tail y hy
  · subst he
    rw [has3_append_left x _ hx]
    exact has3_sep_seg_tail y z hy (isSegL_ne_nil hseg) hz

theorem isModifierL_no3 {l : List Char} (h : isModifierL l = true) :
    has3 '_' l = false := by
  rcases isModifierL_decomp h with ⟨b, f, he, hb, hf⟩
  subst he
  have hnf : '_' ∉ ('-' :: '-' :: f) := by
    intro hm
    rcases List.mem_cons.mp hm with h2 | h2
    · simp at h2
    · rcases List.mem_cons.mp h2 with h3 | h3
      · simp at h3
      · exact isSegL_not_us hf h3
  rw [has3_append_right b ('-' :: '-' :: f) hnf]
  exact isBaseL_no3 hb

/-! ## Lemmas: disjointness of the grammars -/

theorem bem_false_of_state {l : List Char} (h : isStateL l = true) :
    (isSegL l || isElemL l || isNestedL l || isModifierL l) = false := by
  rcases isStateL_upper h with ⟨c, hc, hup⟩
  cases hb : (isSegL l || isElemL l || isNestedL l || isModifierL l)
  · rfl
  · exfalso
    have hok : charOK c = true := by
      rcases Bool.or_eq_true _ _ |>.mp hb with h2 | h2
      · rcases Bool.or_eq_true _ _ |>.mp h2 with h3 | h3
        · rcases Bool.or_eq_true _ _ |>.mp h3 with h4 | h4
          · exact isSegL_charOK h4 c hc
          · exact isElemL_charOK h4 c hc
        · exact isNestedL_charOK h3 c hc
      · exact isModifierL_charOK h2 c hc
    rw [isUpC_not_charOK hup] at hok
    exact Bool.false_ne_true hok

theorem state_false_of_seg {l : List Char} (h : isSegL l = true) :
    isStateL l = false := by
  cases hs : isStateL l
  · rfl
  · exfalso
    rcases isStateL_upper hs with ⟨c, hc, hup⟩
    have := isSegL_charOK h c hc
    rw [isUpC_not_charOK hup] at this
    exact Bool.false_ne_true this

theorem modifier_false_of_seg {l : List Char} (h : isSegL l = true) :
    isModifierL l = false := by
  cases hm : isModifierL l
  · rfl
  · exfalso
    rcases isModifierL_decomp hm with ⟨b, f, he, _, _⟩
    have h2 := isSegL_no_hh h
    rw [he, has2_append_ddy '-' b f] at h2
    exact Bool.false_ne_true h2.symm

theorem elem_false_of_seg {l : List Char} (h : isSegL l = true) :
    isElemL l = false := by
  rw [isElemL, splitSep_single_of_not_mem '_' l (isSegL_not_us h)]

theorem nested_false_of_seg {l : List Char} (h : isSegL l = true) :
    isNestedL l = false := by
  rw [isNestedL, splitSep_single_of_not_mem '_' l (isSegL_not_us h)]

/-! ## Lemmas: inversion of `getClassType` -/

theorem getClassType_some_state {s : String} {cfg : HcncConfig}
    (h : getClassType s cfg = some .state) : isStateClass s = true := by
  unfold getClassType at h
  split_ifs at h <;> simp_all

theorem getClassType_some_modifier {s : String} {cfg : HcncConfig}
    (h : getClassType s cfg = some .modifier) : isModifier s = true := by
  unfold getClassType at h
  split_ifs at h <;> simp_all

theorem getClassType_some_nested {s : String} {cfg : HcncConfig}
    (h : getClassType s cfg = some .nestedElement) :
    isNestedElement s = true := by
  unfold getClassType at h
  split_ifs at h <;> simp_all

theorem getClassType_some_element {s : String} {cfg : HcncConfig}
    (h : getClassType s cfg = some .element) : isElement s = true := by
  unfold getClassType at h
  split_ifs at h <;> simp_all

theorem getClassType_some_utility {s : String} {cfg : HcncConfig}
    (h : getClassType s cfg = some .utility) :
    isUtilityClass s cfg.customUtilities = true := by
  unfold getClassType at h
  split_ifs at h <;> simp_all

theorem getClassType_some_block {s : String} {cfg : HcncConfig}
    (h : getClassType s cfg = some .block) :
    isStateClass s = false ∧ isModifier s = false ∧
      isNestedElement s = false ∧ isElement s = false ∧
      isUtilityClass s cfg.customUtilities = false ∧ isBlock s = true := by
  unfold getClassType at h
  split_ifs at h <;> simp_all

/-! ## Claim-side shapes for the modifier grammar (claim C3) -/

/-- The shape `<seg>__<seg>`: a block followed directly by a
double-underscore segment (no intermediate `_` segment). -/
def isSegUUL (b : List Char) : Bool :=
  match splitSep '_' b with
  | [x, [], y] => isSegL x && isSegL y
  | _ => false

/-- The modifier grammar exactly as claim C3 states it: a valid block,
L1 element, or L2 nested element, followed by one `--` separator and
one lowercase-hyphenated segment. -/
def modifierClaimedShape (s : String) : Bool :=
  match splitDD s.data with
  | some (b, f) => (isSegL b || isElemL b || isNestedL b) && isSegL f
  | none => false

/-- The amended modifier shape: the base may also be a block followed
directly by a double-underscore segment (`block__seg`), which
`MODIFIER_PATTERN` accepts because its `(?:_<seg>)?` and `(?:__<seg>)?`
groups are independently optional. -/
def modifierAmendedShape (s : String) : Bool :=
  match splitDD s.data with
  | some (b, f) =>
    (isSegL b || isElemL b || isSegUUL b || isNestedL b) && isSegL f
  | none => false

theorem isBaseL_eq (b : List Char) :
    isBaseL b = (isSegL b || isElemL b || isSegUUL b || isNestedL b) := by
  have hj := joinSep_splitSep '_' b
  rcases hs : splitSep '_' b with _ | ⟨x, _ | ⟨y, _ | ⟨z, _ | ⟨w, _ | ⟨r5, rest⟩⟩⟩⟩⟩
  · exact absurd hs (splitSep_ne_nil '_' b)
  · rw [hs] at hj
    rw [show joinSep '_' [x] = x from rfl] at hj
    subst hj
    simp only [isBaseL, isElemL, isSegUUL, isNestedL, hs]
    simp
  · have hcon : isSegL b = false :=
      isSegL_false_of_us (sep_mem_of_parts2 '_' b x y [] hs)
    simp only [isBaseL, isElemL, isSegUUL, isNestedL, hs, hcon]
    simp
  · have hcon : isSegL b = false :=
      isSegL_false_of_us (sep_mem_of_parts2 '_' b x y [z] hs)
    cases y with
    | nil =>
      simp only [isBaseL, isElemL, isSegUUL, isNestedL, hs, hcon]
      simp
    | cons c y2 =>
      simp only [isBaseL, isElemL, isSegUUL, isNestedL, hs, hcon]
      simp
  · have hcon : isSegL b = false :=
      isSegL_false_of_us (sep_mem_of_parts2 '_' b x y [z, w] hs)
    cases z with
    | nil =>
      simp only [isBaseL, isElemL, isSegUUL, isNestedL, hs, hcon]
      simp
    | cons c z2 =>
      simp only [isBaseL, isElemL, isSegUUL, isNestedL, hs, hcon]
      simp
  · have hcon : isSegL b = false :=
      isSegL_false_of_us (sep_mem_of_parts2 '_' b x y (z :: w :: r5 :: rest) hs)
    cases y with
    | nil =>
      cases z with
      | nil => simp only [isBaseL, isElemL, isSegUUL, isNestedL, hs, hcon]; simp
      | cons c z2 =>
        simp only [isBaseL, isElemL, isSegUUL, isNestedL, hs, hcon]; simp
    | cons c y2 =>
      cases z with
      | nil => simp only [isBaseL, isElemL, isSegUUL, isNestedL, hs, hcon]; simp
      | cons c2 z2 =>
        simp only [isBaseL, isElemL, isSegUUL, isNestedL, hs, hcon]; simp

/-- C3 (counterexample): `"a__b--c"` is accepted by the modifier grammar
although its base `"a__b"` is neither a block, nor an L1 element, nor an
L2 nested element — the claimed shape rejects it. -/
theorem modifier_claimed_shape_counterexample :
    isModifier "a__b--c" = true ∧ modifierClaimedShape "a__b--c" = false := by
  exact ⟨by decide, by decide⟩

/-- C3 (amended): the modifier grammar accepts a token iff it is a valid
block, L1 element, L2 nested element, *or a block followed directly by a
double-underscore segment*, followed by one `--` separator and one
lowercase-hyphenated segment. -/
theorem modifier_amended_shape_eq :
    ∀ s : String, isModifier s = modifierAmendedShape s := by
  intro s
  unfold isModifier isModifierL modifierAmendedShape
  rcases hdd : splitDD s.data with _ | ⟨b, f⟩
  · simp [hdd]
  · simp [hdd, isBaseL_eq b]

/-- C1 (counterexample): `getClassType` classifies `"from-a_b"` as an
element (elements are checked before utilities), yet `isHcncClass`
rejects it because it also matches the built-in utility pattern
`/^from-\w+(-\d+)?$/`. -/
theorem isHcncClass_element_counterexample :
    getClassType "from-a_b" = some HcncClassType.element ∧
      isHcncClass "from-a_b" = false := by
  exact ⟨by decide, by decide⟩

/-- C1 (amended): under the default configuration, `isHcncClass` is
false for tokens of kind state or utility and true for kind block; for
kinds element, nested-element and modifier it equals the negation of
built-in utility-catalog membership (the utility catalog overlaps those
shapes through its word-character patterns). -/
theorem isHcncClass_vs_getClassType :
    ∀ s : String,
      (getClassType s = some HcncClassType.state → isHcncClass s = false) ∧
      (getClassType s = some HcncClassType.utility → isHcncClass s = false) ∧
      (getClassType s = some HcncClassType.block → isHcncClass s = true) ∧
      ((getClassType s = some HcncClassType.element ∨
        getClassType s = some HcncClassType.nestedElement ∨
        getClassType s = some HcncClassType.modifier) →
        isHcncClass s = !isUtilityClass s) := by
  intro s
  refine ⟨?_, ?_, ?_, ?_⟩
  · intro h
    have hst : isStateL s.data = true := getClassType_some_state h
    have hb := bem_false_of_state hst
    unfold isHcncClass isBlock isElement isNestedElement isModifier
    rw [hb, Bool.and_false]
  · intro h
    have hu : isUtilityClass s [] = true := getClassType_some_utility h
    unfold isHcncClass
    rw [hu]
    rfl
  · intro h
    obtain ⟨_, _, _, _, h5, h6⟩ := getClassType_some_block h
    have h5b : isUtilityClass s [] = false := h5
    unfold isHcncClass
    rw [h5b, h6]
    rfl
  · intro h
    have hbem : (isBlock s || isElement s || isNestedElement s ||
        isModifier s) = true := by
      rcases h with h | h | h
      · rw [getClassType_some_element h]; simp
      · rw [getClassType_some_nested h]; simp
      · rw [getClassType_some_modifier h]; simp
    unfold isHcncClass
    rw [hbem, Bool.and_true]

/-- Witness for `isHcncClass_vs_getClassType` at concrete tokens. -/
theorem isHcncClass_vs_getClassType_witness :
    isHcncClass "card" = true ∧ isHcncClass "flex" = false ∧
      isHcncClass "card--big" = !isUtilityClass "card--big" := by
  refine ⟨?_, ?_, ?_⟩
  · exact (isHcncClass_vs_getClassType "card").2.2.1 (by decide)
  · exact (isHcncClass_vs_getClassType "flex").2.1 (by decide)
  · exact (isHcncClass_vs_getClassType "card--big").2.2.2
      (Or.inr (Or.inr (by decide)))

/-- C2: a token matching both the utility catalog and the block grammar
is classified `utility` when `strictBem` is unset and `none` (never
`block`) when it is set; in particular for `"mt-2"`. -/
theorem getClassType_utility_block_overlap :
    (∀ (s : String) (cfg : HcncConfig), isBlock s = true →
      isUtilityClass s cfg.customUtilities = true →
      getClassType s cfg =
        if cfg.strictBem then none else some HcncClassType.utility) ∧
    getClassType "mt-2" { strictBem := true } = none ∧
    getClassType "mt-2" = some HcncClassType.utility := by
  refine ⟨?_, by decide, by decide⟩
  intro s cfg hb hu
  have h1 : isStateClass s = false := state_false_of_seg hb
  have h2 : isModifier s = false := modifier_false_of_seg hb
  have h3 : isNestedElement s = false := nested_false_of_seg hb
  have h4 : isElement s = false := elem_false_of_seg hb
  unfold getClassType
  simp [h1, h2, h3, h4, hu]

/-- Witness for `getClassType_utility_block_overlap` at `"flex"` with
the default configuration. -/
theorem getClassType_utility_block_overlap_witness :
    getClassType "flex" = some HcncClassType.utility := by
  have h := getClassType_utility_block_overlap.1 "flex" {} (by decide)
    (by decide)
  exact h

/-- C4 (counterexample): `"mix-blend-___"` contains a triple underscore,
yet the built-in utility pattern `/^mix-blend-\w+$/` matches it (`\w`
includes the underscore), so `getClassType` returns `utility`, not
`none`. -/
theorem triple_underscore_counterexample :
    has3 '_' "mix-blend-___".data = true ∧
      getClassType "mix-blend-___" = some HcncClassType.utility := by
  exact ⟨by decide, by decide⟩

/-- C4 (amended): a token containing three consecutive underscores is
rejected by all five BEM-family grammars, and `getClassType` (default
configuration) returns `none` unless a built-in utility pattern (via its
word-character classes) matches, in which case it returns `utility`;
`getClassType "card___triple"` is `none`. -/
theorem triple_underscore_rejected :
    (∀ s : String, has3 '_' s.data = true →
      isBlock s = false ∧ isElement s = false ∧ isNestedElement s = false ∧
      isModifier s = false ∧ isStateClass s = false ∧
      (getClassType s = none ∨ getClassType s = some HcncClassType.utility)) ∧
    getClassType "card___triple" = none := by
  refine ⟨?_, by decide⟩
  intro s h3
  have hb : isBlock s = false := by
    cases hx : isBlock s
    · rfl
    · rw [isSegL_no3 hx] at h3; simp at h3
  have he : isElement s = false := by
    cases hx : isElement s
    · rfl
    · rw [isElemL_no3 hx] at h3; simp at h3
  have hn : isNestedElement s = false := by
    cases hx : isNestedElement s
    · rfl
    · rw [isNestedL_no3 hx] at h3; simp at h3
  have hm : isModifier s = false := by
    cases hx : isModifier s
    · rfl
    · rw [isModifierL_no3 hx] at h3; simp at h3
  have hst : isStateClass s = false := by
    cases hx : isStateClass s
    · rfl
    · rw [isStateL_not_us3 hx] at h3; simp at h3
  refine ⟨hb, he, hn, hm, hst, ?_⟩
  cases hu : isUtilityClass s []
  · left
    unfold getClassType
    simp [hst, hm, hn, he, hb]
    exact hu
  · right
    unfold getClassType
    simp [hst, hm, hn, he, hu]

/-- Witness for `triple_underscore_rejected` at `"a___b"`. -/
theorem triple_underscore_rejected_witness :
    isBlock "a___b" = false ∧ isElement "a___b" = false ∧
      isNestedElement "a___b" = false ∧ isModifier "a___b" = false ∧
      isStateClass "a___b" = false ∧
      (getClassType "a___b" = none ∨
        getClassType "a___b" = some HcncClassType.utility) :=
  triple_underscore_rejected.1 "a___b" (by decide)

/-- C5: any token of the shape `is`/`has` followed by an ASCII uppercase
letter and alphanumeric characters is classified `state` under every
configuration — the state grammar is checked first in `getClassType`. -/
theorem state_shape_always_state :
    ∀ (s : String) (cfg : HcncConfig) (c : Char) (rest : List Char),
      (s.data = 'i' :: 's' :: c :: rest ∨
        s.data = 'h' :: 'a' :: 's' :: c :: rest) →
      isUpC c = true → rest.all alnumC = true →
      getClassType s cfg = some HcncClassType.state := by
  intro s cfg c rest hshape hup hall
  have hst : isStateClass s = true := by
    unfold isStateClass
    rcases hshape with h | h <;> rw [h] <;> simp [isStateL, hup, hall]
  unfold getClassType
  rw [hst]
  simp

/-- Witness for `state_shape_always_state`: `"isActive"` stays `state`
even under a configuration whose custom utility pattern matches it and
with `strictBem` set. -/
theorem state_shape_always_state_witness :
    getClassType "isActive"
      { customUtilities := [reStr "isActive"], strictBem := true } =
      some HcncClassType.state :=
  state_shape_always_state "isActive" _ 'A' "ctive".data
    (Or.inl (by decide)) (by decide) (by decide)

/-- C6 (code bug): the guard of the collapse-double-underscore
suggestion, `className.includes('__') && !className.includes('_')`, is
unsatisfiable — a string containing `"__"` contains `"_"` — so the
suggestion is never emitted; `"card__title"` (which the spec says should
receive it) gets only the generic message. -/
theorem collapse_suggestion_never_fires :
    (∀ s : String, collapseSuggCond s = false) ∧
    validateClassName "card__title" =
      ⟨false, none,
        some "Class \"card__title\" does not match HCNC naming convention"⟩ := by
  refine ⟨?_, by decide⟩
  intro s
  unfold collapseSuggCond
  cases h2 : has2 '_' s.data
  · rfl
  · have hm : '_' ∈ s.data := has2_mem s.data h2
    have hc : containsC '_' s.data = true := by
      simp only [containsC, List.any_eq_true, decide_eq_true_eq]
      exact ⟨'_', hm, rfl⟩
    rw [hc]
    rfl

/-- C7: when `allowUnknown` is set and no grammar matches, the validator
reports success with kind `none` and a non-empty informational message;
in particular for `"UnknownThing"`. -/
theorem allowUnknown_reports_valid :
    (∀ (s : String) (cfg : HcncConfig), cfg.allowUnknown = true →
      getClassType s cfg = none →
      validateClassName s cfg =
        ⟨true, none,
          some ("Unknown class \"" ++ s ++ "\" (allowed by config)")⟩ ∧
      ("Unknown class \"" ++ s ++ "\" (allowed by config)") ≠ "") ∧
    validateClassName "UnknownThing" { allowUnknown := true } =
      ⟨true, none, some "Unknown class \"UnknownThing\" (allowed by config)"⟩ := by
  refine ⟨?_, by decide⟩
  intro s cfg hau hn
  constructor
  · unfold validateClassName
    rw [hn, hau]
    simp
  · intro he
    have hlen := congrArg String.length he
    rw [String.length_append, String.length_append] at hlen
    have h1 : ("Unknown class \"" : String).length = 15 := rfl
    have h2 : ("\" (allowed by config)" : String).length = 21 := rfl
    have h0 : ("" : String).length = 0 := rfl
    rw [h1, h2, h0] at hlen
    omega

/-- Witness for `allowUnknown_reports_valid` at `"not a css token"`. -/
theorem allowUnknown_reports_valid_witness :
    validateClassName "not a css token" { allowUnknown := true } =
      ⟨true, none,
        some ("Unknown class \"" ++ "not a css token" ++
          "\" (allowed by config)")⟩ ∧
    ("Unknown class \"" ++ "not a css token" ++ "\" (allowed by config)") ≠
      "" :=
  allowUnknown_reports_valid.1 "not a css token" { allowUnknown := true }
    rfl (by decide)

/-- C8 (counterexample): with the token `"flex"` (matched by a built-in
pattern) a malformed custom source is never compiled: classification
succeeds silently instead of surfacing a compile error. -/
theorem malformed_custom_silently_skipped :
    isUtilityClassE "flex" [RegexSrc.bad "("] = Except.ok true := rfl

theorem customLoop_error (s e : String) :
    ∀ (pre : List Re) (post : List RegexSrc),
      pre.all (fun r => !reTest r s) = true →
      customLoop s (pre.map RegexSrc.ok ++ RegexSrc.bad e :: post) =
        Except.error ("Invalid regular expression: /" ++ e ++ "/") := by
  intro pre
  induction pre with
  | nil => intro post _; rfl
  | cons r pre2 ih =>
    intro post hpre
    simp only [List.all_cons, Bool.and_eq_true, Bool.not_eq_true'] at hpre
    rw [List.map_cons, List.cons_append]
    show (if reTest r s then Except.ok true
      else customLoop s (pre2.map RegexSrc.ok ++ RegexSrc.bad e :: post)) = _
    rw [hpre.1]
    simp only [Bool.false_eq_true, if_false]
    exact ih post hpre.2

/-- C8 (amended): a malformed custom source surfaces as a distinct error
naming the offending source exactly when evaluation reaches it: no
built-in pattern matches the token and every earlier custom source is
well-formed and fails to match.  (When an earlier pattern matches, the
malformed entry is silently skipped — see the counterexample.) -/
theorem malformed_custom_surfaces_error :
    ∀ (s e : String) (pre : List Re) (post : List RegexSrc),
      UTILITY_PATTERNS.any (fun r => reTest r s) = false →
      pre.all (fun r => !reTest r s) = true →
      isUtilityClassE s (pre.map RegexSrc.ok ++ RegexSrc.bad e :: post) =
        Except.error ("Invalid regular expression: /" ++ e ++ "/") := by
  intro s e pre post hb hpre
  unfold isUtilityClassE
  rw [hb]
  simp only [Bool.false_eq_true, if_false]
  exact customLoop_error s e pre post hpre

/-- Witness for `malformed_custom_surfaces_error`. -/
theorem malformed_custom_surfaces_error_witness :
    isUtilityClassE "zz"
      [RegexSrc.ok (reStr "aa"), RegexSrc.bad "(",
        RegexSrc.ok (reStr "zz")] =
      Except.error ("Invalid regular expression: /" ++ "(" ++ "/") :=
  malformed_custom_surfaces_error "zz" "(" [reStr "aa"]
    [RegexSrc.ok (reStr "zz")] (by decide) (by decide)

/-- C9: classification is a pure function of the token and the
configuration: repeated calls with the same arguments are literally the
same value (the embedding is stateless, as is the source: the compiled
patterns carry no mutable matching state and no call mutates anything). -/
theorem classification_deterministic :
    ∀ (s : String) (cfg : HcncConfig),
      getClassType s cfg = getClassType s cfg ∧
      validateClassName s cfg = validateClassName s cfg ∧
      (List.replicate 2 (s, cfg)).map (fun p => validateClassName p.1 p.2) =
        List.replicate 2 (validateClassName s cfg) :=
  fun _ _ => ⟨rfl, rfl, rfl⟩

/-! ## Lemmas: the SCSS selector matcher consumes no closing brace -/

theorem mem_dropWhile_of_mem {p : Char → Bool} {c : Char} :
    ∀ l : List Char, c ∈ l → p c = false → c ∈ l.dropWhile p := by
  intro l
  induction l with
  | nil => intro h _; simp at h
  | cons a t ih =>
    intro h hp
    cases hpa : p a
    · rw [List.dropWhile_cons_of_neg (by simp [hpa])]
      exact h
    · rw [List.dropWhile_cons_of_pos (by simp [hpa])]
      apply ih ?_ hp
      rcases List.mem_cons.mp h with he | hm
      · subst he; rw [hpa] at hp; simp at hp
      · exact hm

theorem selUnit_brace :
    ∀ l : List Char, '}' ∈ l → ∀ u r, selUnit l = some (u, r) → '}' ∈ r := by
  intro l hm u r h
  cases l with
  | nil => simp [selUnit] at h
  | cons c cs =>
    by_cases hdot : c = '.' ∨ c = '#'
    · have hb : (c = '.' || c = '#' : Bool) = true := by
        rcases hdot with h2 | h2 <;> simp [h2]
      cases cs with
      | nil =>
        rw [show selUnit [c] = none by simp [selUnit, hb]] at h
        simp at h
      | cons d ds =>
        rw [show selUnit (c :: d :: ds) =
            (if selCh1 d = true then
              some (c :: d :: ds.takeWhile selCh, ds.dropWhile selCh)
            else none) by simp [selUnit, hb]] at h
        by_cases hd : selCh1 d = true
        · rw [if_pos hd] at h
          simp only [Option.some.injEq, Prod.mk.injEq] at h
          rw [← h.2]
          have hinds : '}' ∈ ds := by
            rcases List.mem_cons.mp hm with he | hm2
            · exfalso
              rcases hdot with h2 | h2 <;>
                · rw [h2] at he
                  exact absurd he (by decide)
            · rcases List.mem_cons.mp hm2 with he | hm3
              · exfalso; rw [← he] at hd; exact absurd hd (by decide)
              · exact hm3
          exact mem_dropWhile_of_mem ds hinds (by decide)
        · rw [if_neg hd] at h; simp at h
    · have hb : (c = '.' || c = '#' : Bool) = false := by
        simp only [Bool.or_eq_false_iff, decide_eq_false_iff_not]
        exact ⟨fun h2 => hdot (Or.inl h2), fun h2 => hdot (Or.inr h2)⟩
      rw [show selUnit (c :: cs) = (if selCh1 c then
          some (c :: cs.takeWhile selCh, cs.dropWhile selCh) else none)
        by simp [selUnit, hb]] at h
      by_cases hc1 : selCh1 c = true
      · rw [if_pos hc1] at h
        simp only [Option.some.injEq, Prod.mk.injEq] at h
        rw [← h.2]
        have hincs : '}' ∈ cs := by
          rcases List.mem_cons.mp hm with he | hm2
          · exfalso; rw [← he] at hc1; exact absurd hc1 (by decide)
          · exact hm2
        exact mem_dropWhile_of_mem cs hincs (by decide)
      · rw [if_neg hc1] at h; simp at h

theorem selRest_none_of_brace :
    ∀ (fuel : Nat) (acc l : List Char), '}' ∈ l →
      selRest acc fuel l = none := by
  intro fuel
  induction fuel with
  | zero => intro acc l _; rfl
  | succ f ih =>
    intro acc l h
    have h1 : '}' ∈ l.dropWhile wsC := mem_dropWhile_of_mem l h (by decide)
    unfold selRest
    split
    · rename_i r heq
      rw [heq] at h1
      have h2 : '}' ∈ r := by
        rcases List.mem_cons.mp h1 with he | hm
        · exact absurd he (by decide)
        · exact hm
      have h3 : '}' ∈ r.dropWhile wsC := mem_dropWhile_of_mem r h2 (by decide)
      split
      · rename_i u r2 hu
        exact ih _ r2 (selUnit_brace _ h3 u r2 hu)
      · rfl
    · rename_i r2 heq
      rw [heq] at h1
      have h2 : '}' ∈ r2 := by
        rcases List.mem_cons.mp h1 with he | hm
        · exact absurd he (by decide)
        · exact hm
      have h5 : ¬r2.all wsC = true := by
        intro hall
        have := List.all_eq_true.mp hall '}' h2
        exact absurd this (by decide)
      rw [if_neg h5]
    · rename_i heq
      rw [heq] at h1
      simp at h1
    · rfl

theorem selMatch_none_of_brace {l : List Char} (h : '}' ∈ l) :
    selMatch l = none := by
  unfold selMatch
  split
  · rename_i u r hu
    exact selRest_none_of_brace _ u r (selUnit_brace l h u r hu)
  · rfl

/-- C10: the SCSS nesting expander is safe at its two boundary cases: a
line containing a closing brace with an empty context stack pops nothing
and leaves the collected output unchanged, and a leading `&` selector
with no enclosing context resolves against the empty parent, pushing the
bare remainder of the selector. -/
theorem expandScssNesting_boundary :
    (∀ (st : ScssState) (line : List Char),
      containsC '}' (trimC line) = true → st.stack = [] →
      processLine st line = ⟨st.expanded, []⟩) ∧
    (∀ (st : ScssState) (line sel : List Char), st.stack = [] →
      selMatch (trimC line) = some ('&' :: sel) →
      processLine st line =
        ⟨st.expanded ++ (match sel with | '.' :: r => [r] | _ => []),
          [sel]⟩) := by
  constructor
  · intro st line hbr hst
    have hm : '}' ∈ trimC line := by
      simp only [containsC, List.any_eq_true, decide_eq_true_eq] at hbr
      rcases hbr with ⟨c, hc, he⟩
      exact he ▸ hc
    simp only [processLine, selMatch_none_of_brace hm, hbr, hst]
    simp
  · intro st line sel hst hsel
    have hnb : containsC '}' (trimC line) = false := by
      cases hc : containsC '}' (trimC line)
      · rfl
      · exfalso
        have hm : '}' ∈ trimC line := by
          simp only [containsC, List.any_eq_true, decide_eq_true_eq] at hc
          rcases hc with ⟨c2, hc2, he⟩
          exact he ▸ hc2
        rw [selMatch_none_of_brace hm] at hsel
        simp at hsel
    simp only [processLine, hsel, hnb, hst]
    simp only [List.head?_nil, Option.getD_none, List.nil_append,
      Bool.false_eq_true, if_false]
    refine ScssState.mk.injEq _ _ _ _ ▸ ?_
    cases sel with
    | nil => simp
    | cons a r2 =>
      by_cases ha : a = '.'
      · subst ha; simp
      · have h1 : (match a :: r2 with
            | '.' :: r => st.expanded ++ [r]
            | _ => st.expanded) = st.expanded := by
          split
          · rename_i r heq
            injection heq with h3 _
            exact absurd h3 ha
          · rfl
        have h2 : (match a :: r2 with
            | '.' :: r => ([r] : List (List Char))
            | _ => []) = [] := by
          split
          · rename_i r heq
            injection heq with h3 _
            exact absurd h3 ha
          · rfl
        rw [h1, h2]
        simp

/-- Witness for `expandScssNesting_boundary` at concrete lines. -/
theorem expandScssNesting_boundary_witness :
    processLine ⟨[['c']], []⟩ ['a', '}'] = ⟨[['c']], []⟩ ∧
    processLine ⟨[], []⟩ ['&', 'x'] = ⟨[], [['x']]⟩ := by
  constructor
  · exact expandScssNesting_boundary.1 ⟨[['c']], []⟩ ['a', '}']
      (by decide) rfl
  · exact expandScssNesting_boundary.2 ⟨[], []⟩ ['&', 'x'] ['x'] rfl
      (by decide)
